import Mathlib

/-!
# Verification of the thinking-signature resilience subsystem of CLIProxyAPI

This development gives a shallow embedding, in Lean 4, of the signature-error
resilience subsystem of the CLIProxyAPI proxy: the invalid-signature blacklist
cache (`internal/cache/invalid_signature_cache.go`), the session-id derivation,
error classifiers, payload sanitizers and retry orchestrators
(`internal/runtime/executor/antigravity_thinking_helpers.go`,
`claude_thinking_helpers.go`, `claude_thinking_transport.go`), and the
streaming-fallback reconstructors
(`sdk/api/handlers/thinking_signature_fallback.go`).

Modelling conventions:
* JSON documents are represented by an inductive `Json` AST.  A raw HTTP body,
  which in Go is a byte slice that may or may not be JSON, is represented by
  `Body`: either a JSON document or plain non-JSON text.  `gjson` lookups on a
  non-JSON body return the empty result, as they do in Go for plain prose.
* Go's `gjson` `Result.String()` is modelled by `gstr`: strings return their
  content, numbers and booleans their decimal/text form, `null` and missing
  results the empty string, and arrays/objects their (compact) JSON rendering,
  mirroring `Result.Raw` for composite values.
* The process-global cache (`sync.Map` plus `time.Now`) is modelled by an
  explicit association-list state threaded through the functions, with an
  explicit `now : Nat` clock in seconds.
* `crypto/sha256` and `encoding/hex` are modelled bit-faithfully by an
  executable SHA-256 over byte lists (naturals below 256) with arithmetic
  mod 2^32.
-/

namespace CLIProxy

/-! ## Go string primitives -/

/-- Go `strings.ToLower`, modelled character-wise (exact on ASCII input). -/
def goToLower (s : String) : String := String.mk (s.data.map Char.toLower)

/-- `sub` is a prefix of `l`, as an executable test. -/
def listPrefixEq : List Char → List Char → Bool
  | [], _ => true
  | _ :: _, [] => false
  | c :: cs, d :: ds => c == d && listPrefixEq cs ds

/-- `sub` occurs contiguously in `l`, as an executable search. -/
def infixAt : List Char → List Char → Bool
  | sub, [] => listPrefixEq sub []
  | sub, c :: cs => listPrefixEq sub (c :: cs) || infixAt sub cs

/-- Go `strings.Contains s sub`: `sub` occurs contiguously inside `s`. -/
def goContains (s sub : String) : Bool := infixAt sub.data s.data

theorem listPrefixEq_iff (sub l : List Char) : listPrefixEq sub l = true ↔ sub <+: l := by
  induction sub generalizing l with
  | nil => simp [listPrefixEq]
  | cons c cs ih =>
    cases l with
    | nil => simp [listPrefixEq]
    | cons d ds => simp [listPrefixEq, List.cons_prefix_cons, ih, And.comm]

theorem infixAt_iff (sub l : List Char) : infixAt sub l = true ↔ sub <:+: l := by
  induction l with
  | nil =>
    simp [infixAt, listPrefixEq_iff]
  | cons c cs ih =>
    simp [infixAt, listPrefixEq_iff, ih, List.infix_cons_iff]

theorem goContains_iff (s sub : String) : goContains s sub = true ↔ sub.data <:+: s.data :=
  infixAt_iff sub.data s.data

/-! ## UTF-8 encoding (Go `[]byte(string)`) -/

/-- UTF-8 encoding of one code point, as byte values. -/
def utf8Char (c : Char) : List Nat :=
  let n := c.toNat
  if n < 0x80 then [n]
  else if n < 0x800 then
    [0xC0 ||| (n >>> 6), 0x80 ||| (n &&& 0x3F)]
  else if n < 0x10000 then
    [0xE0 ||| (n >>> 12), 0x80 ||| ((n >>> 6) &&& 0x3F), 0x80 ||| (n &&& 0x3F)]
  else
    [0xF0 ||| (n >>> 18), 0x80 ||| ((n >>> 12) &&& 0x3F),
     0x80 ||| ((n >>> 6) &&& 0x3F), 0x80 ||| (n &&& 0x3F)]

/-- Go `[]byte(s)`: the UTF-8 bytes of a string. -/
def utf8Bytes (s : String) : List Nat := s.data.flatMap utf8Char

/-! ## SHA-256 (Go `crypto/sha256`), over byte lists, arithmetic mod 2^32 -/

/-- Truncate to a 32-bit word. -/
def w32 (n : Nat) : Nat := n % 4294967296

/-- 32-bit addition. -/
def add32 (a b : Nat) : Nat := w32 (a + b)

/-- 32-bit right rotation. -/
def rotr32 (x k : Nat) : Nat := w32 ((x >>> k) ||| (x <<< (32 - k)))

/-- SHA-256 `Ch` function (`not x` as xor with the 32-bit mask). -/
def sha256Ch (x y z : Nat) : Nat := (x &&& y) ^^^ ((x ^^^ 0xFFFFFFFF) &&& z)

/-- SHA-256 `Maj` function. -/
def sha256Maj (x y z : Nat) : Nat := (x &&& y) ^^^ (x &&& z) ^^^ (y &&& z)

/-- SHA-256 big sigma 0. -/
def bigSigma0 (x : Nat) : Nat := rotr32 x 2 ^^^ rotr32 x 13 ^^^ rotr32 x 22

/-- SHA-256 big sigma 1. -/
def bigSigma1 (x : Nat) : Nat := rotr32 x 6 ^^^ rotr32 x 11 ^^^ rotr32 x 25

/-- SHA-256 small sigma 0. -/
def smallSigma0 (x : Nat) : Nat := rotr32 x 7 ^^^ rotr32 x 18 ^^^ (x >>> 3)

/-- SHA-256 small sigma 1. -/
def smallSigma1 (x : Nat) : Nat := rotr32 x 17 ^^^ rotr32 x 19 ^^^ (x >>> 10)

/-- The 64 SHA-256 round constants. -/
def sha256K : List Nat :=
  [1116352408, 1899447441, 3049323471, 3921009573, 961987163, 1508970993,
   2453635748, 2870763221, 3624381080, 310598401, 607225278, 1426881987,
   1925078388, 2162078206, 2614888103, 3248222580, 3835390401, 4022224774,
   264347078, 604807628, 770255983, 1249150122, 1555081692, 1996064986,
   2554220882, 2821834349, 2952996808, 3210313671, 3336571891, 3584528711,
   113926993, 338241895, 666307205, 773529912, 1294757372, 1396182291,
   1695183700, 1986661051, 2177026350, 2456956037, 2730485921, 2820302411,
   3259730800, 3345764771, 3516065817, 3600352804, 4094571909, 275423344,
   430227734, 506948616, 659060556, 883997877, 958139571, 1322822218,
   1537002063, 1747873779, 1955562222, 2024104815, 2227730452, 2361852424,
   2428436474, 2756734187, 3204031479, 3329325298]

/-- SHA-256 working state: eight 32-bit words. -/
structure Sha256State where
  a : Nat
  b : Nat
  c : Nat
  d : Nat
  e : Nat
  f : Nat
  g : Nat
  h : Nat
deriving DecidableEq

/-- The SHA-256 initial hash value. -/
def sha256H0 : Sha256State :=
  ⟨1779033703, 3144134277, 1013904242, 2773480762,
   1359893119, 2600822924, 528734635, 1541459225⟩

/-- One SHA-256 compression round with round constant `k` and schedule word `w`. -/
def sha256Round (st : Sha256State) (kw : Nat × Nat) : Sha256State :=
  let t1 := add32 (add32 (add32 st.h (bigSigma1 st.e))
              (add32 (sha256Ch st.e st.f st.g) kw.1)) kw.2
  let t2 := add32 (bigSigma0 st.a) (sha256Maj st.a st.b st.c)
  ⟨add32 t1 t2, st.a, st.b, st.c, add32 st.d t1, st.e, st.f, st.g⟩

/-- Extend a 16-word block to the full 64-word message schedule. -/
def sha256Extend (ws : List Nat) : Nat → List Nat
  | 0 => ws
  | n + 1 =>
    let len := ws.length
    let v := add32 (add32 (smallSigma1 (ws.getD (len - 2) 0)) (ws.getD (len - 7) 0))
               (add32 (smallSigma0 (ws.getD (len - 15) 0)) (ws.getD (len - 16) 0))
    sha256Extend (ws ++ [v]) n

/-- Big-endian 32-bit word from four bytes. -/
def beWord (b0 b1 b2 b3 : Nat) : Nat := b0 <<< 24 ||| b1 <<< 16 ||| b2 <<< 8 ||| b3

/-- The sixteen 32-bit big-endian words of a 64-byte block. -/
def blockWords (blk : List Nat) : List Nat :=
  (List.range 16).map fun i =>
    beWord (blk.getD (4 * i) 0) (blk.getD (4 * i + 1) 0)
      (blk.getD (4 * i + 2) 0) (blk.getD (4 * i + 3) 0)

/-- Process one 64-byte block. -/
def sha256Block (hs : Sha256State) (blk : List Nat) : Sha256State :=
  let ws := sha256Extend (blockWords blk) 48
  let st := (sha256K.zip ws).foldl sha256Round hs
  ⟨add32 hs.a st.a, add32 hs.b st.b, add32 hs.c st.c, add32 hs.d st.d,
   add32 hs.e st.e, add32 hs.f st.f, add32 hs.g st.g, add32 hs.h st.h⟩

/-- Big-endian 64-bit length field, as eight bytes. -/
def be64 (n : Nat) : List Nat := (List.range 8).map fun i => (n >>> (8 * (7 - i))) % 256

/-- SHA-256 padding: `0x80`, zeros to 56 mod 64, then the bit length. -/
def sha256Pad (msg : List Nat) : List Nat :=
  let padZeros := (119 - msg.length % 64) % 64
  msg ++ [0x80] ++ List.replicate padZeros 0 ++ be64 (8 * msg.length)

/-- Split a byte list into 64-byte blocks (fuel-based so it reduces in the kernel;
the fuel `bs.length` is ample since every step consumes at least one byte). -/
def chunk64Go : Nat → List Nat → List (List Nat)
  | 0, _ => []
  | _, [] => []
  | fuel + 1, b :: bs => (b :: bs).take 64 :: chunk64Go fuel ((b :: bs).drop 64)

/-- Split a byte list into 64-byte blocks. -/
def chunk64 (bs : List Nat) : List (List Nat) := chunk64Go bs.length bs

/-- The four big-endian bytes of a 32-bit word. -/
def wordBytes (w : Nat) : List Nat := [(w >>> 24) % 256, (w >>> 16) % 256, (w >>> 8) % 256, w % 256]

/-- The 32-byte SHA-256 digest of a byte list (Go `sha256.Sum256`). -/
def sha256 (msg : List Nat) : List Nat :=
  let hs := (chunk64 (sha256Pad msg)).foldl sha256Block sha256H0
  wordBytes hs.a ++ wordBytes hs.b ++ wordBytes hs.c ++ wordBytes hs.d ++
  wordBytes hs.e ++ wordBytes hs.f ++ wordBytes hs.g ++ wordBytes hs.h

/-- Lowercase hex digit for a value below 16 (Go `encoding/hex` alphabet). -/
def hexDigit (n : Nat) : Char := if n < 10 then Char.ofNat (48 + n) else Char.ofNat (87 + n)

/-- Go `hex.EncodeToString`: two lowercase hex digits per byte. -/
def hexEncode (bs : List Nat) : String :=
  String.mk (bs.flatMap fun b => [hexDigit (b / 16), hexDigit (b % 16)])

/-- The digest always has 32 bytes. -/
theorem sha256_length (msg : List Nat) : (sha256 msg).length = 32 := by
  simp [sha256, wordBytes]

/-- Hex encoding doubles the length. -/
theorem hexEncode_length (bs : List Nat) : (hexEncode bs).length = 2 * bs.length := by
  induction bs with
  | nil => rfl
  | cons b bs ih =>
    simp only [hexEncode, String.length] at ih ⊢
    simp [List.flatMap_cons, ih]
    omega

/-! ## JSON documents

`Json` models the JSON values the Go code manipulates through `gjson`/`sjson`.
Object fields keep their document order (gjson reads, and sjson writes, the
first occurrence of a key). -/

inductive Json where
  | null
  | bool (b : Bool)
  | num (n : Int)
  | str (s : String)
  | arr (items : List Json)
  | obj (fields : List (String × Json))

/-- The left-brace character, kept symbolic. -/
def lbraceChar : Char := Char.ofNat 123

/-- The right-brace character. -/
def rbraceChar : Char := Char.ofNat 125

/-- The double-quote character. -/
def quoteChar : Char := Char.ofNat 34

/-- JSON string escaping for rendering (quote, backslash and the common
control characters; other characters are emitted verbatim). -/
def escapeStr (s : String) : String :=
  String.mk (s.data.flatMap fun c =>
    if c = quoteChar then ['\\', quoteChar]
    else if c = '\\' then ['\\', '\\']
    else if c = '\n' then ['\\', 'n']
    else if c = '\t' then ['\\', 't']
    else if c = '\r' then ['\\', 'r']
    else [c])

mutual
/-- Compact JSON rendering of a document.  This models the raw bytes
(`gjson` `Result.Raw`) of a value inside a body held as an AST; original
inter-token whitespace is not represented. -/
def Json.render : Json → String
  | .null => "null"
  | .bool b => cond b "true" "false"
  | .num n => toString n
  | .str s => "\"" ++ escapeStr s ++ "\""
  | .arr xs => "[" ++ Json.renderItems xs ++ "]"
  | .obj fs => "\x7b" ++ Json.renderFields fs ++ "\x7d"

/-- Comma-separated rendering of array items. -/
def Json.renderItems : List Json → String
  | [] => ""
  | [x] => Json.render x
  | x :: y :: xs => Json.render x ++ "," ++ Json.renderItems (y :: xs)

/-- Comma-separated rendering of object fields. -/
def Json.renderFields : List (String × Json) → String
  | [] => ""
  | [(k, v)] => "\"" ++ escapeStr k ++ "\":" ++ Json.render v
  | (k, v) :: f :: fs =>
    "\"" ++ escapeStr k ++ "\":" ++ Json.render v ++ "," ++ Json.renderFields (f :: fs)
end

/-- First field with the given key of an object; `none` on non-objects
(gjson path step on a key). -/
def Json.getKey : Json → String → Option Json
  | .obj fields, k => fields.lookup k
  | _, _ => none

/-- gjson numeric path step: index into an array, or the digits used as an
object key. -/
def Json.getIdx : Json → Nat → Option Json
  | .arr xs, i => xs.get? i
  | .obj fields, i => fields.lookup (toString i)
  | _, _ => none

/-- `Result.String()` of a gjson lookup: strings verbatim, numbers and
booleans in text form, `null` and missing results empty, and composite
values their raw JSON. -/
def gstr : Option Json → String
  | some (.str s) => s
  | some (.bool b) => cond b "true" "false"
  | some (.num n) => toString n
  | some .null => ""
  | some (.arr xs) => Json.render (.arr xs)
  | some (.obj fs) => Json.render (.obj fs)
  | none => ""

/-- `Result.Array()` of a gjson lookup: arrays yield their items, `null` and
missing results nothing, and any other value a singleton. -/
def garr : Option Json → List Json
  | some (.arr xs) => xs
  | some .null => []
  | none => []
  | some v => [v]

/-- `Result.Int()` of a gjson lookup: numbers verbatim, `true` as 1,
numeric strings parsed, everything else 0. -/
def gint : Option Json → Int
  | some (.num n) => n
  | some (.bool b) => cond b 1 0
  | some (.str s) => (s.toInt?).getD 0
  | _ => 0

/-- `Result.Exists()` of a gjson lookup. -/
def gexists (r : Option Json) : Bool := r.isSome

/-- Replace the first field with the given key, or append the field at the
end when absent (sjson object write). -/
def setField : List (String × Json) → String → Json → List (String × Json)
  | [], k, v => [(k, v)]
  | (k', v') :: rest, k, v =>
    if k' = k then (k', v) :: rest else (k', v') :: setField rest k v

/-- sjson write of a top-level object key.  The callers below only write keys
into documents that are objects; other documents are left unchanged. -/
def Json.setKey : Json → String → Json → Json
  | .obj fields, k, v => .obj (setField fields k v)
  | j, _, _ => j

/-- Replace element `i` of a list, appending (with `null` padding if needed)
when the index is at or past the end (sjson array index write). -/
def setNth (xs : List Json) (i : Nat) (v : Json) : List Json :=
  match xs, i with
  | [], 0 => [v]
  | [], n + 1 => Json.null :: setNth [] n v
  | _ :: rest, 0 => v :: rest
  | x :: rest, n + 1 => x :: setNth rest n v

/-! ## A JSON parser (gjson / `encoding/json` on byte input)

The Go classifiers run `gjson.Get` and `json.Valid` over raw strings.  The
parser below models them on well-formed documents: objects, arrays, strings
with the standard escapes, integers, and the three literals.  (gjson is
lenient on malformed input and Go numbers may carry fractions; the modelled
documents use neither.)  It is an explicit-stack loop over a fuel counter so
that it reduces inside the kernel. -/

/-- Drop leading JSON whitespace. -/
def skipWs : List Char → List Char
  | [] => []
  | c :: cs => if c = ' ' ∨ c = '\n' ∨ c = '\t' ∨ c = '\r' then skipWs cs else c :: cs

/-- Value of a hex digit. -/
def hexVal (c : Char) : Option Nat :=
  if '0' ≤ c ∧ c ≤ '9' then some (c.toNat - 48)
  else if 'a' ≤ c ∧ c ≤ 'f' then some (c.toNat - 87)
  else if 'A' ≤ c ∧ c ≤ 'F' then some (c.toNat - 55)
  else none

/-- Resolve a single-character string escape. -/
def escChar (c : Char) : Option Char :=
  if c = quoteChar then some quoteChar
  else if c = '\\' then some '\\'
  else if c = '/' then some '/'
  else if c = 'n' then some '\n'
  else if c = 't' then some '\t'
  else if c = 'r' then some '\r'
  else if c = 'b' then some (Char.ofNat 8)
  else if c = 'f' then some (Char.ofNat 12)
  else none

/-- Parse a JSON string body (after the opening quote); returns the content
characters and the input after the closing quote. -/
def parseStrBody : List Char → Option (List Char × List Char)
  | [] => none
  | c :: cs =>
    if c = quoteChar then some ([], cs)
    else if c = '\\' then
      match cs with
      | [] => none
      | e :: cs' =>
        if e = 'u' then
          match cs' with
          | h1 :: h2 :: h3 :: h4 :: cs'' =>
            match hexVal h1, hexVal h2, hexVal h3, hexVal h4 with
            | some v1, some v2, some v3, some v4 =>
              (parseStrBody cs'').map fun (l, r) =>
                (Char.ofNat (((v1 * 16 + v2) * 16 + v3) * 16 + v4) :: l, r)
            | _, _, _, _ => none
          | _ => none
        else
          match escChar e with
          | some ch => (parseStrBody cs').map fun (l, r) => (ch :: l, r)
          | none => none
    else (parseStrBody cs).map fun (l, r) => (c :: l, r)

/-- Take the maximal leading run of decimal digits. -/
def takeDigits : List Char → List Char × List Char
  | [] => ([], [])
  | c :: cs =>
    if c.isDigit then
      let (ds, rest) := takeDigits cs
      (c :: ds, rest)
    else ([], c :: cs)

/-- Numeric value of a digit run. -/
def digitsToNat (ds : List Char) : Nat := ds.foldl (fun acc c => 10 * acc + (c.toNat - 48)) 0

/-- A partially-built container on the parser stack. -/
inductive PFrame where
  | inArr (acc : List Json)
  | inObj (acc : List (String × Json)) (key : String)

/-- The parser loop: `pending` is a just-completed value waiting to be
attached to the enclosing container (or returned at top level). -/
def pLoop : Nat → List PFrame → Option Json → List Char → Option (Json × List Char)
  | 0, _, _, _ => none
  | fuel + 1, stack, some v, cs =>
    match stack with
    | [] => some (v, cs)
    | .inArr acc :: stack' =>
      match skipWs cs with
      | c :: cs' =>
        if c = ',' then pLoop fuel (.inArr (v :: acc) :: stack') none cs'
        else if c = ']' then pLoop fuel stack' (some (.arr (v :: acc).reverse)) cs'
        else none
      | [] => none
    | .inObj acc key :: stack' =>
      match skipWs cs with
      | c :: cs' =>
        if c = ',' then
          match skipWs cs' with
          | q :: cs'' =>
            if q = quoteChar then
              match parseStrBody cs'' with
              | some (kcs, rest) =>
                match skipWs rest with
                | e :: rest' =>
                  if e = ':' then
                    pLoop fuel (.inObj ((key, v) :: acc) (String.mk kcs) :: stack') none rest'
                  else none
                | [] => none
              | none => none
            else none
          | [] => none
        else if c = rbraceChar then
          pLoop fuel stack' (some (.obj ((key, v) :: acc).reverse)) cs'
        else none
      | [] => none
  | fuel + 1, stack, none, cs =>
    match skipWs cs with
    | [] => none
    | c :: cs' =>
      if c = quoteChar then
        match parseStrBody cs' with
        | some (scs, rest) => pLoop fuel stack (some (.str (String.mk scs))) rest
        | none => none
      else if c = lbraceChar then
        match skipWs cs' with
        | d :: cs'' =>
          if d = rbraceChar then pLoop fuel stack (some (.obj [])) cs''
          else if d = quoteChar then
            match parseStrBody cs'' with
            | some (kcs, rest) =>
              match skipWs rest with
              | e :: rest' =>
                if e = ':' then pLoop fuel (.inObj [] (String.mk kcs) :: stack) none rest'
                else none
              | [] => none
            | none => none
          else none
        | [] => none
      else if c = '[' then
        match skipWs cs' with
        | d :: cs'' =>
          if d = ']' then pLoop fuel stack (some (.arr [])) cs''
          else pLoop fuel (.inArr [] :: stack) none (d :: cs'')
        | [] => none
      else if c = 'n' then
        match cs' with
        | 'u' :: 'l' :: 'l' :: rest => pLoop fuel stack (some .null) rest
        | _ => none
      else if c = 't' then
        match cs' with
        | 'r' :: 'u' :: 'e' :: rest => pLoop fuel stack (some (.bool true)) rest
        | _ => none
      else if c = 'f' then
        match cs' with
        | 'a' :: 'l' :: 's' :: 'e' :: rest => pLoop fuel stack (some (.bool false)) rest
        | _ => none
      else if c = '-' then
        match takeDigits cs' with
        | ([], _) => none
        | (ds, rest) => pLoop fuel stack (some (.num (-(Int.ofNat (digitsToNat ds))))) rest
      else if c.isDigit then
        match takeDigits (c :: cs') with
        | (ds, rest) => pLoop fuel stack (some (.num (Int.ofNat (digitsToNat ds)))) rest
      else none

/-- Parse a complete JSON document (no trailing content allowed). -/
def parseJson (s : String) : Option Json :=
  match pLoop (4 * s.length + 16) [] none s.data with
  | some (j, rest) => if (skipWs rest).isEmpty then some j else none
  | none => none

/-- Go `json.Valid`, modelled through the parser. -/
def jsonValid (s : String) : Bool := (parseJson s).isSome

/-! ## Raw HTTP bodies -/

/-- A raw body: a JSON document, or plain non-JSON text.  gjson lookups on
plain text yield the empty result. -/
inductive Body where
  | json (j : Json)
  | text (s : String)

/-- Go `string(body)`. -/
def Body.raw : Body → String
  | .json j => j.render
  | .text s => s

/-- The parsed document of a body, if it is JSON. -/
def Body.root : Body → Option Json
  | .json j => some j
  | .text _ => none

/-- `gjson.GetBytes(body, "error.message").String()`. -/
def bodyErrorMessage (b : Body) : String :=
  gstr ((b.root.bind (Json.getKey · "error")).bind (Json.getKey · "message"))

/-- `gjson.GetBytes(body, "message").String()`. -/
def bodyMessage (b : Body) : String :=
  gstr (b.root.bind (Json.getKey · "message"))

/-! ## The invalid-signature blacklist cache
(`internal/cache/invalid_signature_cache.go`)

The Go cache is a process-global `sync.Map` from session id to a map from
signature to `time.Time`.  It is modelled as an explicit association-list
state (unique keys in any reachable state), with time as `now : Nat` in
seconds. -/

/-- The per-session entry set: signature to record-timestamp. -/
abbrev SigEntries := List (String × Nat)

/-- The cache state: session id to entry set. -/
abbrev SigCache := List (String × SigEntries)

/-- `InvalidSignatureCacheTTL = 3 * time.Hour`, in seconds. -/
def InvalidSignatureCacheTTL : Nat := 10800

/-- `InvalidSignatureCleanupInterval = 10 * time.Minute`, in seconds. -/
def InvalidSignatureCleanupInterval : Nat := 600

/-- Set a signature's timestamp in an entry set (replace or insert). -/
def entriesSet : SigEntries → String → Nat → SigEntries
  | [], sig, now => [(sig, now)]
  | (s, t) :: rest, sig, now =>
    if s = sig then (s, now) :: rest else (s, t) :: entriesSet rest sig now

/-- Update one session's entry set in the cache, creating the session
if absent (`getOrCreateInvalidSession` followed by the entry write). -/
def cacheSet : SigCache → String → String → Nat → SigCache
  | [], sid, sig, now => [(sid, [(sig, now)])]
  | (s, es) :: rest, sid, sig, now =>
    if s = sid then (s, entriesSet es sig now) :: rest
    else (s, es) :: cacheSet rest sid sig now

/-- `cache.CacheInvalidSignature`: record a rejected signature; no-op when
either argument is empty. -/
def CacheInvalidSignature (c : SigCache) (sessionID signature : String) (now : Nat) : SigCache :=
  if sessionID = "" ∨ signature = "" then c
  else cacheSet c sessionID signature now

/-- `cache.IsInvalidSignature`: an unexpired entry exists; false on empty
arguments. -/
def IsInvalidSignature (c : SigCache) (sessionID signature : String) (now : Nat) : Bool :=
  if sessionID = "" ∨ signature = "" then false
  else
    match c.lookup sessionID with
    | none => false
    | some es =>
      match es.lookup signature with
      | none => false
      | some ts => decide (now - ts ≤ InvalidSignatureCacheTTL)

/-- `cache.ClearInvalidSignatureCache`: drop one session, or everything when
the session id is empty. -/
def ClearInvalidSignatureCache (c : SigCache) (sessionID : String) : SigCache :=
  if sessionID ≠ "" then c.filter (fun p => p.1 ≠ sessionID) else []

/-- One pass of the background sweep (`purgeExpiredInvalidSignatures`):
drop expired entries, then drop emptied sessions. -/
def purgeExpiredInvalidSignatures (c : SigCache) (now : Nat) : SigCache :=
  (c.map fun p => (p.1, p.2.filter fun e => ¬ now - e.2 > InvalidSignatureCacheTTL)).filter
    fun p => p.2 ≠ []

/-- Well-formedness of a cache state: session keys are distinct, and so are
the signature keys inside each session (always true of the Go maps). -/
def SigCache.WF (c : SigCache) : Prop :=
  (c.map Prod.fst).Nodup ∧ ∀ p ∈ c, (p.2.map Prod.fst).Nodup

instance (c : SigCache) : Decidable c.WF := by unfold SigCache.WF; infer_instance

/-! ## The positional-error pattern

`anthropicErrorPosRegex = messages\.(\d+)\.content\.(\d+)`, applied with
`FindStringSubmatch` (leftmost match).  Since `\d+` is followed by a
non-digit literal, greedy digit runs need no backtracking, so the scanner
below is an exact model. -/

/-- Match the positional pattern at the head of the input. -/
def matchCoordAt (cs : List Char) : Option (Nat × Nat) :=
  match cs with
  | 'm' :: 'e' :: 's' :: 's' :: 'a' :: 'g' :: 'e' :: 's' :: '.' :: rest =>
    match takeDigits rest with
    | ([], _) => none
    | (ds1, rest1) =>
      match rest1 with
      | '.' :: 'c' :: 'o' :: 'n' :: 't' :: 'e' :: 'n' :: 't' :: '.' :: rest2 =>
        match takeDigits rest2 with
        | ([], _) => none
        | (ds2, _) => some (digitsToNat ds1, digitsToNat ds2)
      | _ => none
  | _ => none

/-- Leftmost match of the positional pattern. -/
def findCoord : List Char → Option (Nat × Nat)
  | [] => none
  | c :: cs =>
    match matchCoordAt (c :: cs) with
    | some r => some r
    | none => findCoord cs

/-! ## Claude thinking helpers
(`internal/runtime/executor/claude_thinking_helpers.go`)

Request payloads are always JSON, so they are passed as `Json`; error bodies
may be arbitrary bytes, so they are passed as `Body`.  The global cache and
clock become explicit `(c : SigCache) (now : Nat)` arguments. -/

/-- `extractErrorMessage`: `error.message`, else `message`, else the raw body. -/
def extractErrorMessage (body : Body) : String :=
  let m := bodyErrorMessage body
  if m ≠ "" then m
  else
    let m2 := bodyMessage body
    if m2 ≠ "" then m2 else body.raw

/-- The content text the session-id scan reads from one message: the
gjson-stringified `content` (raw JSON for composite values), falling back to
`content.0.text` only when that stringification is empty. -/
def userMessageText (msg : Json) : String :=
  let content := gstr (msg.getKey "content")
  if content = "" then
    gstr (((msg.getKey "content").bind (Json.getIdx · 0)).bind (Json.getKey · "text"))
  else content

/-- Scan of the message list inside `deriveSessionIDFromClaudeMessages`. -/
def deriveLoop : List Json → String
  | [] => ""
  | msg :: rest =>
    if gstr (msg.getKey "role") ≠ "user" then deriveLoop rest
    else if userMessageText msg ≠ "" then
      hexEncode ((sha256 (utf8Bytes (userMessageText msg))).take 16)
    else deriveLoop rest

/-- `deriveSessionIDFromClaudeMessages`: hash of the first user message whose
gjson-stringified content (or, failing that, `content.0.text`) is non-empty. -/
def deriveSessionIDFromClaudeMessages (body : Json) : String :=
  match body.getKey "messages" with
  | some (.arr msgs) => deriveLoop msgs
  | _ => ""

/-- `isClaudeThinkingInvalidSignatureError`: 400 and the extracted message
contains (case-insensitively) the contiguous phrase "invalid signature"
together with "thinking". -/
def isClaudeThinkingInvalidSignatureError (statusCode : Int) (body : Body) : Bool :=
  if statusCode ≠ 400 then false
  else
    let msgLower := goToLower (extractErrorMessage body)
    goContains msgLower "invalid signature" && goContains msgLower "thinking"

/-- `extractInvalidThinkingPath`: positional pattern in the extracted message. -/
def extractInvalidThinkingPath (errBody : Body) : Option (Nat × Nat) :=
  findCoord (extractErrorMessage errBody).data

/-- `gjson.GetBytes(p, "messages.<i>.content.<j>.signature").String()`. -/
def payloadSignatureAt (p : Json) (i j : Nat) : String :=
  gstr (((((p.getKey "messages").bind (Json.getIdx · i)).bind
    (Json.getKey · "content")).bind (Json.getIdx · j)).bind (Json.getKey · "signature"))

/-- `recordInvalidThinkingSignatureFromError`: read the signature at the
error's coordinate out of the given payload and cache it.  Returns the
recorded signature (Go's `(string, bool)`) and the new cache state. -/
def recordInvalidThinkingSignatureFromError (sessionID : String) (sentPayload : Json)
    (errBody : Body) (c : SigCache) (now : Nat) : Option String × SigCache :=
  if sessionID = "" then (none, c)
  else
    match extractInvalidThinkingPath errBody with
    | none => (none, c)
    | some (msgIndex, partIndex) =>
      let sig := payloadSignatureAt sentPayload msgIndex partIndex
      if sig = "" then (none, c)
      else (some sig, CacheInvalidSignature c sessionID sig now)

/-- The `thinkingPlaceholder` constant, as the document its raw JSON denotes. -/
def thinkingPlaceholder : Json :=
  .obj [("type", .str "text"),
        ("text", .str "[Previous thinking omitted due to invalid signature]")]

/-- One content part of the walk in `replaceThinkingBlocks`: parts whose
`type` is not `"thinking"` are skipped, and with a predicate present a
thinking part is replaced only when the predicate accepts its signature. -/
def replacePart (shouldReplace : Option (String → Bool)) (part : Json) : Json × Bool :=
  if gstr (part.getKey "type") ≠ "thinking" then (part, false)
  else
    match shouldReplace with
    | some pred =>
      if pred (gstr (part.getKey "signature")) then (thinkingPlaceholder, true)
      else (part, false)
    | none => (thinkingPlaceholder, true)

/-- One message of the walk: messages whose `content` is not an array are
skipped. -/
def replaceMessage (shouldReplace : Option (String → Bool)) (msg : Json) : Json × Bool :=
  match msg.getKey "content" with
  | some (.arr parts) =>
    let rs := parts.map (replacePart shouldReplace)
    (msg.setKey "content" (.arr (rs.map Prod.fst)), rs.any Prod.snd)
  | _ => (msg, false)

/-- `replaceThinkingBlocks`.  The Go code iterates the parsed snapshot of
`messages` and rewrites single elements in place through
`sjson.SetRawBytes(payload, "messages.<i>.content.<j>", ...)`; element
replacement never shifts indices and the predicate always reads the
snapshot, so the walk equals this structural map over the snapshot. -/
def replaceThinkingBlocks (payload : Json) (shouldReplace : Option (String → Bool)) :
    Json × Bool :=
  match payload.getKey "messages" with
  | some (.arr msgs) =>
    let rs := msgs.map (replaceMessage shouldReplace)
    (payload.setKey "messages" (.arr (rs.map Prod.fst)), rs.any Prod.snd)
  | _ => (payload, false)

/-- `sanitizeClaudePayloadForInvalidThinking`: selective strip of the
blacklisted signatures of this session. -/
def sanitizeClaudePayloadForInvalidThinking (payload : Json) (sessionID : String)
    (c : SigCache) (now : Nat) : Json × Bool :=
  if sessionID = "" then (payload, false)
  else
    replaceThinkingBlocks payload
      (some fun sig => (sig != "") && IsInvalidSignature c sessionID sig now)

/-- `stripClaudeThinkingBlocksForRetry`: full strip (nil predicate). -/
def stripClaudeThinkingBlocksForRetry (payload : Json) : Json × Bool :=
  replaceThinkingBlocks payload none

/-- `handleThinkingErrorRecovery`: returns the payload to retry with, the
should-retry flag, and the new cache state. -/
def handleThinkingErrorRecovery (sessionID : String) (payload : Json) (errBody : Body)
    (statusCode : Int) (c : SigCache) (now : Nat) : Json × Bool × SigCache :=
  if ¬ isClaudeThinkingInvalidSignatureError statusCode errBody then (payload, false, c)
  else
    match recordInvalidThinkingSignatureFromError sessionID payload errBody c now with
    | (some _, c') => ((sanitizeClaudePayloadForInvalidThinking payload sessionID c' now).1, true, c')
    | (none, c') => ((stripClaudeThinkingBlocksForRetry payload).1, true, c')

/-! ## Antigravity thinking helpers
(`internal/runtime/executor/antigravity_thinking_helpers.go`) -/

/-- `extractAntigravityErrorMessage`: like `extractErrorMessage`, but when
the outer `error.message` itself starts with a brace and contains a nested
`error.message`, descend one level (the Google-RPC-wrapped Anthropic error). -/
def extractAntigravityErrorMessage (body : Body) : String :=
  let outerMsg := bodyErrorMessage body
  if outerMsg ≠ "" then
    if outerMsg.startsWith "\x7b" then
      let innerMsg :=
        gstr (((parseJson outerMsg).bind (Json.getKey · "error")).bind (Json.getKey · "message"))
      if innerMsg ≠ "" then innerMsg else outerMsg
    else outerMsg
  else
    let m := bodyMessage body
    if m ≠ "" then m else body.raw

/-- `isAntigravityThinkingSignatureError`: 400 and the extracted message
contains (case-insensitively) "invalid", "signature" and "thinking" as three
independent substrings. -/
def isAntigravityThinkingSignatureError (statusCode : Int) (body : Body) : Bool :=
  if statusCode ≠ 400 then false
  else
    let msgLower := goToLower (extractAntigravityErrorMessage body)
    goContains msgLower "invalid" && goContains msgLower "signature" &&
      goContains msgLower "thinking"

/-- `extractAntigravityInvalidThinkingPath`. -/
def extractAntigravityInvalidThinkingPath (errBody : Body) : Option (Nat × Nat) :=
  findCoord (extractAntigravityErrorMessage errBody).data

/-- `recordAntigravityInvalidSignature`: as the Claude variant, but with the
Antigravity message extraction. -/
def recordAntigravityInvalidSignature (sessionID : String) (originalPayload : Json)
    (errBody : Body) (c : SigCache) (now : Nat) : Option String × SigCache :=
  if sessionID = "" then (none, c)
  else
    match extractAntigravityInvalidThinkingPath errBody with
    | none => (none, c)
    | some (msgIndex, partIndex) =>
      let sig := payloadSignatureAt originalPayload msgIndex partIndex
      if sig = "" then (none, c)
      else (some sig, CacheInvalidSignature c sessionID sig now)

/-- `replaceAntigravityThinkingBlocks`: the Go source duplicates
`replaceThinkingBlocks` verbatim. -/
def replaceAntigravityThinkingBlocks (payload : Json)
    (shouldReplace : Option (String → Bool)) : Json × Bool :=
  replaceThinkingBlocks payload shouldReplace

/-- `sanitizeAntigravityPayloadForInvalidThinking`. -/
def sanitizeAntigravityPayloadForInvalidThinking (payload : Json) (sessionID : String)
    (c : SigCache) (now : Nat) : Json × Bool :=
  if sessionID = "" then (payload, false)
  else
    replaceAntigravityThinkingBlocks payload
      (some fun sig => (sig != "") && IsInvalidSignature c sessionID sig now)

/-- `stripAntigravityThinkingBlocksForRetry`. -/
def stripAntigravityThinkingBlocksForRetry (payload : Json) : Json × Bool :=
  replaceAntigravityThinkingBlocks payload none

/-- `handleAntigravityThinkingErrorRecovery`. -/
def handleAntigravityThinkingErrorRecovery (sessionID : String) (originalPayload : Json)
    (errBody : Body) (statusCode : Int) (c : SigCache) (now : Nat) : Json × Bool × SigCache :=
  if ¬ isAntigravityThinkingSignatureError statusCode errBody then (originalPayload, false, c)
  else
    match recordAntigravityInvalidSignature sessionID originalPayload errBody c now with
    | (some _, c') =>
      ((sanitizeAntigravityPayloadForInvalidThinking originalPayload sessionID c' now).1, true, c')
    | (none, c') => ((stripAntigravityThinkingBlocksForRetry originalPayload).1, true, c')

/-! ## Streaming-fallback classifier
(`sdk/api/handlers/thinking_signature_fallback.go`) -/

/-- `containsThinkingSignaturePattern`: the three keywords as independent
substrings of an already-lowercased text. -/
def containsThinkingSignaturePattern (msgLower : String) : Bool :=
  goContains msgLower "invalid" && goContains msgLower "signature" &&
    goContains msgLower "thinking"

/-- `isThinkingSignatureErrorText`: raw text first, then (for valid JSON) the
`error.message` level, its nested `error.message` level, and the top-level
`message` field. -/
def isThinkingSignatureErrorText (errText : String) : Bool :=
  if errText = "" then false
  else if containsThinkingSignaturePattern (goToLower errText) then true
  else if jsonValid errText then
    let msg := gstr (((parseJson errText).bind (Json.getKey · "error")).bind (Json.getKey · "message"))
    let hitNested :=
      if msg ≠ "" then
        if containsThinkingSignaturePattern (goToLower msg) then true
        else if jsonValid msg then
          containsThinkingSignaturePattern (goToLower
            (gstr (((parseJson msg).bind (Json.getKey · "error")).bind (Json.getKey · "message"))))
        else false
      else false
    if hitNested then true
    else
      let msg2 := gstr ((parseJson errText).bind (Json.getKey · "message"))
      if msg2 ≠ "" then containsThinkingSignaturePattern (goToLower msg2) else false
  else false

/-- `interfaces.ErrorMessage`, with the possibly-nil wrapped error as an
`Option` of its text. -/
structure ErrorMessage where
  statusCode : Int
  errText : Option String

/-- `ShouldFallbackThinkingSignature` (a nil `*ErrorMessage` is `none`). -/
def ShouldFallbackThinkingSignature : Option ErrorMessage → Bool
  | none => false
  | some e =>
    if e.statusCode ≠ 400 then false
    else
      match e.errText with
      | none => false
      | some t => isThinkingSignatureErrorText t

/-! ## Retry orchestrators
(`antigravity_thinking_helpers.go` executor methods and
`claude_thinking_transport.go`)

The upstream transport (`executeClaudeNonStream` / the wrapped
`http.RoundTripper`) is an external collaborator, modelled as a function of
the attempt index and the request payload(s); the orchestrator output is
instrumented with the list of issued attempts so the retry discipline can be
stated. -/

/-- A Go error from the executor: a `statusErr` with code and error body, or
any other error value. -/
inductive GoErr where
  | statusErr (code : Int) (body : Body)
  | otherErr

/-- Result of an orchestrated execution: the returned `(resp, err)` pair,
the `(req.Payload, opts.OriginalRequest)` of every upstream attempt in
order, and the final cache state. -/
structure OrchOut (ρ : Type) where
  result : ρ × Option GoErr
  sent : List (Json × Option Json)
  cache : SigCache

/-- `(*AntigravityExecutor).executeClaudeNonStreamWithRecovery`.  `tr k p o`
is `executeClaudeNonStream` on attempt `k` with `req.Payload = p` and
`opts.OriginalRequest = o`. -/
def executeClaudeNonStreamWithRecovery {ρ : Type}
    (tr : Nat → Json → Option Json → ρ × Option GoErr)
    (reqPayload : Json) (optsOriginalRequest : Option Json)
    (c : SigCache) (now : Nat) : OrchOut ρ :=
  let originalPayload := optsOriginalRequest.getD reqPayload
  let sessionID := deriveSessionIDFromClaudeMessages originalPayload
  let s := sanitizeAntigravityPayloadForInvalidThinking originalPayload sessionID c now
  let reqPayload1 := if s.2 then s.1 else reqPayload
  let opts1 := if s.2 then some s.1 else optsOriginalRequest
  let r1 := tr 0 reqPayload1 opts1
  match r1.2 with
  | none => ⟨r1, [(reqPayload1, opts1)], c⟩
  | some .otherErr => ⟨r1, [(reqPayload1, opts1)], c⟩
  | some (.statusErr code body) =>
    let h := handleAntigravityThinkingErrorRecovery sessionID originalPayload body code c now
    if h.2.1 then
      ⟨tr 1 h.1 (some h.1), [(reqPayload1, opts1), (h.1, some h.1)], h.2.2⟩
    else ⟨r1, [(reqPayload1, opts1)], h.2.2⟩

/-- An HTTP response with its (fully read) body. -/
structure HttpResponse where
  status : Int
  body : Body

/-- `claudeThinkingRecoveryTransport.RoundTrip`.  `base k override` is the
wrapped round-tripper on attempt `k`; `override` is the replacement body of
the retried request (`none` for the original request).  Transport failures
are `Except.error`; reading a response body is modelled as succeeding.  The
middle component counts the upstream calls. -/
def claudeThinkingRecoveryTransportRoundTrip {ε : Type}
    (base : Nat → Option Json → Except ε HttpResponse)
    (isClaudeMessagesRequest : Bool) (sessionID : String) (initialPayload : Json)
    (c : SigCache) (now : Nat) : Except ε HttpResponse × Nat × SigCache :=
  if ¬ isClaudeMessagesRequest then (base 0 none, 1, c)
  else
    match base 0 none with
    | .error e => (.error e, 1, c)
    | .ok resp =>
      if resp.status ≠ 400 then (.ok resp, 1, c)
      else
        let h := handleThinkingErrorRecovery sessionID initialPayload resp.body resp.status c now
        if ¬ h.2.1 then (.ok resp, 1, h.2.2)
        else (base 1 (some h.1), 2, h.2.2)

/-- `claudeThinkingPreRequest`: derive the session id from the translation
body and selectively strip the upstream body.  (The Go guard against an
empty sanitized byte slice can never fire, sjson output being non-empty.) -/
def claudeThinkingPreRequest (bodyForUpstream bodyForTranslation : Json)
    (c : SigCache) (now : Nat) : String × Json :=
  let sessionID := deriveSessionIDFromClaudeMessages bodyForTranslation
  if sessionID = "" then ("", bodyForUpstream)
  else ((sessionID, (sanitizeClaudePayloadForInvalidThinking bodyForUpstream sessionID c now).1))

/-! ## Streaming-fallback reconstructors
(`sdk/api/handlers/thinking_signature_fallback.go`)

Output is modelled as the sequence of SSE frames the Go builders write;
`renderFrame` is the byte framing.  Object keys inside `json.Marshal`-ed
map data appear in the marshaller's (alphabetical) key order. -/

/-- One SSE frame: a labelled event, an unlabelled data frame, or the
`[DONE]` terminator. -/
inductive SSEFrame where
  | labeled (event : String) (data : Json)
  | dataFrame (data : Json)
  | doneFrame

/-- The byte framing of one frame. -/
def renderFrame : SSEFrame → String
  | .labeled e d => "event: " ++ e ++ "\ndata: " ++ d.render ++ "\n\n"
  | .dataFrame d => "data: " ++ d.render ++ "\n\n"
  | .doneFrame => "data: [DONE]\n\n"

/-- The byte output of a frame sequence. -/
def renderFrames (fs : List SSEFrame) : String := String.join (fs.map renderFrame)

/-- The frames `BuildClaudeFinalOnlySSE` writes for content block `i`:
a start frame; a delta frame only for `"text"` / `"thinking"` blocks,
carrying the block's text or thinking content; a stop frame. -/
def claudeBlockFrames (i : Nat) (block : Json) : List SSEFrame :=
  let blockType := gstr (block.getKey "type")
  [.labeled "content_block_start"
    (.obj [("content_block", block), ("index", .num (Int.ofNat i)),
           ("type", .str "content_block_start")])]
  ++ (if blockType = "text" then
        [.labeled "content_block_delta"
          (.obj [("delta", .obj [("text", .str (gstr (block.getKey "text"))),
                                 ("type", .str "text_delta")]),
                 ("index", .num (Int.ofNat i)), ("type", .str "content_block_delta")])]
      else if blockType = "thinking" then
        [.labeled "content_block_delta"
          (.obj [("delta", .obj [("thinking", .str (gstr (block.getKey "thinking"))),
                                 ("type", .str "thinking_delta")]),
                 ("index", .num (Int.ofNat i)), ("type", .str "content_block_delta")])]
      else [])
  ++ [.labeled "content_block_stop"
        (.obj [("index", .num (Int.ofNat i)), ("type", .str "content_block_stop")])]

/-- The `message_delta` data: stop reason, null stop sequence, and the
usage object when present and non-null (`Result.Value()` is nil otherwise). -/
def claudeMessageDelta (resp : Json) : Json :=
  let base := [("delta", Json.obj [("stop_reason", Json.str (gstr (resp.getKey "stop_reason"))),
                                   ("stop_sequence", Json.null)]),
               ("type", Json.str "message_delta")]
  match resp.getKey "usage" with
  | some .null => .obj base
  | some u => .obj (base ++ [("usage", u)])
  | none => .obj base

/-- `BuildClaudeFinalOnlySSE`. -/
def BuildClaudeFinalOnlySSE (resp : Json) : List SSEFrame :=
  [.labeled "message_start" (.obj [("type", .str "message_start"), ("message", resp)])]
  ++ ((garr (resp.getKey "content")).enum.flatMap fun p => claudeBlockFrames p.1 p.2)
  ++ [.labeled "message_delta" (claudeMessageDelta resp)]
  ++ [.labeled "message_stop" (.obj [("type", .str "message_stop")])]

/-- The delta object of one OpenAI choice (role/content only when non-empty,
`tool_calls` verbatim when the field exists). -/
def openAIChoiceDelta (message : Option Json) : Json :=
  let delta := Json.obj []
  let role := gstr (message.bind (Json.getKey · "role"))
  let delta := if role ≠ "" then delta.setKey "role" (.str role) else delta
  let content := gstr (message.bind (Json.getKey · "content"))
  let delta := if content ≠ "" then delta.setKey "content" (.str content) else delta
  match message.bind (Json.getKey · "tool_calls") with
  | some tc => delta.setKey "tool_calls" tc
  | none => delta

/-- One rebuilt OpenAI choice. -/
def buildOpenAIChoice (i : Nat) (choice : Json) : Json :=
  let idx := if gexists (choice.getKey "index") then gint (choice.getKey "index")
             else Int.ofNat i
  let finishReason := gstr (choice.getKey "finish_reason")
  let message := choice.getKey "message"
  let choiceJSON := Json.obj [("index", .num 0), ("delta", .obj [])]
  let choiceJSON := choiceJSON.setKey "index" (.num idx)
  let choiceJSON := choiceJSON.setKey "delta" (openAIChoiceDelta message)
  if finishReason ≠ "" then choiceJSON.setKey "finish_reason" (.str finishReason)
  else choiceJSON

/-- `BuildOpenAIFinalOnlySSE` (the `time.Now()` fallbacks for a missing id
and created stamp are passed in as arguments). -/
def BuildOpenAIFinalOnlySSE (resp : Json) (nowUnixNano nowUnix : Int) : List SSEFrame :=
  let id := gstr (resp.getKey "id")
  let id := if id = "" then "chatcmpl-" ++ toString nowUnixNano else id
  let model := gstr (resp.getKey "model")
  let created := gint (resp.getKey "created")
  let created := if created = 0 then nowUnix else created
  let chunk := Json.obj [("id", .str ""), ("object", .str "chat.completion.chunk"),
                         ("created", .num 0), ("model", .str ""), ("choices", .arr [])]
  let chunk := ((chunk.setKey "id" (.str id)).setKey "created" (.num created)).setKey
    "model" (.str model)
  let choices := garr (resp.getKey "choices")
  let chunk := choices.enum.foldl (fun ch p =>
    ch.setKey "choices" (.arr (setNth (garr (ch.getKey "choices")) p.1
      (buildOpenAIChoice p.1 p.2)))) chunk
  let chunk :=
    match resp.getKey "usage" with
    | some u => chunk.setKey "usage" u
    | none => chunk
  [.dataFrame chunk, .doneFrame]

/-! ## Accessors used by the specifications -/

/-- The message list of a payload, when `messages` is a JSON array. -/
def messagesOf (p : Json) : Option (List Json) :=
  match p.getKey "messages" with
  | some (.arr ms) => some ms
  | _ => none

/-- The content-block list of a message, when `content` is a JSON array. -/
def contentOf (m : Json) : Option (List Json) :=
  match m.getKey "content" with
  | some (.arr ps) => some ps
  | _ => none

/-- A content block of type `"thinking"` whose signature is blacklisted for
the session (the selective-strip target). -/
def thinkingBlacklisted (c : SigCache) (sid : String) (now : Nat) (part : Json) : Bool :=
  (gstr (part.getKey "type") == "thinking") &&
    IsInvalidSignature c sid (gstr (part.getKey "signature")) now

/-- The entry timestamp of a (session, signature) pair in the cache. -/
def cacheFind (c : SigCache) (sid sig : String) : Option Nat :=
  (c.lookup sid).bind fun es => es.lookup sig

/-! ## Lemmas: object writes -/

theorem lookup_setField_self (fs : List (String × Json)) (k : String) (v : Json) :
    (setField fs k v).lookup k = some v := by
  induction fs with
  | nil => simp [setField, List.lookup]
  | cons f rest ih =>
    obtain ⟨k', v'⟩ := f
    by_cases h : k' = k
    · subst h; simp [setField, List.lookup]
    · have hb : (k == k') = false := beq_eq_false_iff_ne.mpr (Ne.symm h)
      simp [setField, h, List.lookup, hb, ih]

theorem lookup_setField_ne (fs : List (String × Json)) (k k' : String) (v : Json)
    (h : k' ≠ k) : (setField fs k v).lookup k' = fs.lookup k' := by
  induction fs with
  | nil =>
    have hb : (k' == k) = false := beq_eq_false_iff_ne.mpr h
    simp [setField, List.lookup, hb]
  | cons f rest ih =>
    obtain ⟨k₀, v₀⟩ := f
    by_cases h0 : k₀ = k
    · subst h0
      have hb : (k' == k₀) = false := beq_eq_false_iff_ne.mpr h
      simp [setField, List.lookup, hb]
    · cases hb : (k' == k₀) <;> simp [setField, h0, List.lookup, hb, ih]

theorem setField_self (fs : List (String × Json)) (k : String) (v : Json)
    (h : fs.lookup k = some v) : setField fs k v = fs := by
  induction fs with
  | nil => simp [List.lookup] at h
  | cons f rest ih =>
    obtain ⟨k₀, v₀⟩ := f
    by_cases h0 : k₀ = k
    · subst h0
      simp [List.lookup] at h
      simp [setField, h]
    · have hb : (k == k₀) = false := beq_eq_false_iff_ne.mpr (fun e => h0 e.symm)
      simp [List.lookup, hb] at h
      simp [setField, h0, ih h]

theorem getKey_setKey_self (p : Json) (k : String) (v w : Json)
    (h : p.getKey k = some w) : (p.setKey k v).getKey k = some v := by
  cases p <;> simp [Json.getKey] at h ⊢
  exact lookup_setField_self _ _ _

theorem getKey_setKey_ne (p : Json) (k k' : String) (v : Json) (h : k' ≠ k) :
    (p.setKey k v).getKey k' = p.getKey k' := by
  cases p <;> simp [Json.getKey, Json.setKey]
  exact lookup_setField_ne _ _ _ _ h

theorem setKey_self (p : Json) (k : String) (v : Json) (h : p.getKey k = some v) :
    p.setKey k v = p := by
  cases p <;> simp [Json.getKey] at h ⊢
  simp [Json.setKey, setField_self _ _ _ h]

/-! ## Lemmas: the sanitizer walk -/

theorem replacePart_unchanged (pred : Option (String → Bool)) (part : Json)
    (h : (replacePart pred part).2 = false) : (replacePart pred part).1 = part := by
  by_cases hty : gstr (part.getKey "type") ≠ "thinking"
  · simp [replacePart, hty]
  · cases pred with
    | none => simp [replacePart, hty] at h
    | some p =>
      cases hpv : p (gstr (part.getKey "signature")) <;>
        simp [replacePart, hty, hpv] at h ⊢

theorem replaceMessage_unchanged (pred : Option (String → Bool)) (msg : Json)
    (h : (replaceMessage pred msg).2 = false) : (replaceMessage pred msg).1 = msg := by
  rcases heq : msg.getKey "content" with _ | j
  · simp [replaceMessage, heq]
  · cases j with
    | arr parts =>
      simp only [replaceMessage, heq] at h ⊢
      rw [List.any_eq_false] at h
      have hmap : (parts.map (replacePart pred)).map Prod.fst = parts := by
        rw [List.map_map]
        have hc : ∀ x ∈ parts, (Prod.fst ∘ replacePart pred) x = id x := by
          intro x hx
          exact replacePart_unchanged pred x
            (Bool.eq_false_iff.mpr (h _ (List.mem_map_of_mem _ hx)))
        rw [List.map_congr_left hc, List.map_id]
      rw [hmap]
      exact setKey_self _ _ _ heq
    | null => simp [replaceMessage, heq]
    | bool b => simp [replaceMessage, heq]
    | num n => simp [replaceMessage, heq]
    | str s => simp [replaceMessage, heq]
    | obj fs => simp [replaceMessage, heq]

theorem replaceThinkingBlocks_unchanged (pred : Option (String → Bool)) (p : Json)
    (h : (replaceThinkingBlocks p pred).2 = false) : (replaceThinkingBlocks p pred).1 = p := by
  rcases heq : p.getKey "messages" with _ | j
  · simp [replaceThinkingBlocks, heq]
  · cases j with
    | arr msgs =>
      simp only [replaceThinkingBlocks, heq] at h ⊢
      rw [List.any_eq_false] at h
      have hmap : (msgs.map (replaceMessage pred)).map Prod.fst = msgs := by
        rw [List.map_map]
        have hc : ∀ x ∈ msgs, (Prod.fst ∘ replaceMessage pred) x = id x := by
          intro x hx
          exact replaceMessage_unchanged pred x
            (Bool.eq_false_iff.mpr (h _ (List.mem_map_of_mem _ hx)))
        rw [List.map_congr_left hc, List.map_id]
      rw [hmap]
      exact setKey_self _ _ _ heq
    | null => simp [replaceThinkingBlocks, heq]
    | bool b => simp [replaceThinkingBlocks, heq]
    | num n => simp [replaceThinkingBlocks, heq]
    | str s => simp [replaceThinkingBlocks, heq]
    | obj fs => simp [replaceThinkingBlocks, heq]

theorem IsInvalidSignature_empty_sig (c : SigCache) (sid : String) (now : Nat) :
    IsInvalidSignature c sid "" now = false := by
  simp [IsInvalidSignature]

theorem IsInvalidSignature_empty_sid (c : SigCache) (sig : String) (now : Nat) :
    IsInvalidSignature c "" sig now = false := by
  simp [IsInvalidSignature]

/-- The predicate `sanitizeClaudePayloadForInvalidThinking` passes to the
walk replaces a part exactly when it is a blacklisted thinking block. -/
theorem replacePart_sanitize (c : SigCache) (sid : String) (now : Nat) (part : Json) :
    replacePart (some fun sig => (sig != "") && IsInvalidSignature c sid sig now) part =
      (if thinkingBlacklisted c sid now part then thinkingPlaceholder else part,
       thinkingBlacklisted c sid now part) := by
  by_cases hty : gstr (part.getKey "type") = "thinking"
  · by_cases hsig : gstr (part.getKey "signature") = ""
    · simp [replacePart, thinkingBlacklisted, hty, hsig, IsInvalidSignature_empty_sig]
    · cases hv : IsInvalidSignature c sid (gstr (part.getKey "signature")) now <;>
        simp [replacePart, thinkingBlacklisted, hty, hsig, hv]
  · simp [replacePart, thinkingBlacklisted, hty]

/-- The full-strip walk (nil predicate) replaces a part exactly when its
type is `"thinking"`. -/
theorem replacePart_none (part : Json) :
    replacePart none part =
      (if gstr (part.getKey "type") == "thinking" then thinkingPlaceholder else part,
       gstr (part.getKey "type") == "thinking") := by
  by_cases hty : gstr (part.getKey "type") = "thinking" <;> simp [replacePart, hty]

theorem any_map_snd {α : Type} (f : α → Json × Bool) (l : List α) :
    (l.map f).any Prod.snd = l.any fun x => (f x).2 := by
  induction l with
  | nil => rfl
  | cons x xs ih => simp [List.any_cons, ih]

theorem getKey_messages_of_messagesOf {p : Json} {ms : List Json}
    (h : messagesOf p = some ms) : p.getKey "messages" = some (.arr ms) := by
  unfold messagesOf at h
  split at h
  · simp_all
  · exact absurd h (by simp)

theorem getKey_content_of_contentOf {m : Json} {ps : List Json}
    (h : contentOf m = some ps) : m.getKey "content" = some (.arr ps) := by
  unfold contentOf at h
  split at h
  · simp_all
  · exact absurd h (by simp)

/-- The walk on a payload whose `messages` is missing or not an array. -/
theorem replaceThinkingBlocks_no_messages (p : Json) (pred : Option (String → Bool))
    (h : messagesOf p = none) : replaceThinkingBlocks p pred = (p, false) := by
  unfold messagesOf at h
  unfold replaceThinkingBlocks
  split at h
  · exact absurd h (by simp)
  · rfl

/-- The walk on a message whose `content` is missing or not an array. -/
theorem replaceMessage_no_content (m : Json) (pred : Option (String → Bool))
    (h : contentOf m = none) : replaceMessage pred m = (m, false) := by
  unfold contentOf at h
  unfold replaceMessage
  split at h
  · exact absurd h (by simp)
  · rfl

/-- Structure of the walk over a payload with a message array: the message
list is mapped elementwise, other top-level keys are untouched, and the
changed flag is the disjunction over messages. -/
theorem replaceThinkingBlocks_messages (p : Json) (pred : Option (String → Bool))
    (ms : List Json) (h : messagesOf p = some ms) :
    messagesOf (replaceThinkingBlocks p pred).1 =
        some (ms.map fun m => (replaceMessage pred m).1) ∧
      (∀ k, k ≠ "messages" → ((replaceThinkingBlocks p pred).1).getKey k = p.getKey k) ∧
      (replaceThinkingBlocks p pred).2 = ms.any fun m => (replaceMessage pred m).2 := by
  have heq := getKey_messages_of_messagesOf h
  unfold replaceThinkingBlocks
  rw [heq]
  refine ⟨?_, ?_, ?_⟩
  · have := getKey_setKey_self p "messages"
      (.arr ((ms.map (replaceMessage pred)).map Prod.fst)) _ heq
    unfold messagesOf
    rw [this, List.map_map]
    rfl
  · intro k hk
    exact getKey_setKey_ne p "messages" k _ hk
  · exact any_map_snd (replaceMessage pred) ms

/-- Structure of the walk over one message with a content array. -/
theorem replaceMessage_content (m : Json) (pred : Option (String → Bool))
    (ps : List Json) (h : contentOf m = some ps) :
    contentOf (replaceMessage pred m).1 =
        some (ps.map fun part => (replacePart pred part).1) ∧
      (∀ k, k ≠ "content" → ((replaceMessage pred m).1).getKey k = m.getKey k) ∧
      (replaceMessage pred m).2 = ps.any fun part => (replacePart pred part).2 := by
  have heq := getKey_content_of_contentOf h
  unfold replaceMessage
  rw [heq]
  refine ⟨?_, ?_, ?_⟩
  · have := getKey_setKey_self m "content"
      (.arr ((ps.map (replacePart pred)).map Prod.fst)) _ heq
    unfold contentOf
    rw [this, List.map_map]
    rfl
  · intro k hk
    exact getKey_setKey_ne m "content" k _ hk
  · exact any_map_snd (replacePart pred) ps

/-! ## Lemmas: the blacklist cache -/

theorem entriesSet_lookup_self (es : SigEntries) (sig : String) (now : Nat) :
    (entriesSet es sig now).lookup sig = some now := by
  induction es with
  | nil => simp [entriesSet, List.lookup]
  | cons e rest ih =>
    obtain ⟨s, t⟩ := e
    by_cases h : s = sig
    · subst h; simp [entriesSet, List.lookup]
    · have hb : (sig == s) = false := beq_eq_false_iff_ne.mpr (Ne.symm h)
      simp [entriesSet, h, List.lookup, hb, ih]

theorem lookup_cacheSet_self (c : SigCache) (sid sig : String) (now : Nat) :
    (cacheSet c sid sig now).lookup sid =
      some (entriesSet ((c.lookup sid).getD []) sig now) := by
  induction c with
  | nil => simp [cacheSet, List.lookup, entriesSet]
  | cons p rest ih =>
    obtain ⟨s, es⟩ := p
    by_cases h : s = sid
    · subst h; simp [cacheSet, List.lookup]
    · have hb : (sid == s) = false := beq_eq_false_iff_ne.mpr (Ne.symm h)
      simp [cacheSet, h, List.lookup, hb, ih]

theorem lookup_mem {β : Type} {l : List (String × β)} {k : String} {v : β}
    (h : l.lookup k = some v) : (k, v) ∈ l := by
  induction l with
  | nil => simp [List.lookup] at h
  | cons p rest ih =>
    obtain ⟨k₀, v₀⟩ := p
    cases hb : (k == k₀) with
    | true =>
      simp [List.lookup, hb] at h
      subst h
      simp [eq_of_beq hb]
    | false =>
      simp [List.lookup, hb] at h
      exact List.mem_cons_of_mem _ (ih h)

theorem lookup_none_of_not_mem {β : Type} {l : List (String × β)} {k : String}
    (h : k ∉ l.map Prod.fst) : l.lookup k = none := by
  induction l with
  | nil => rfl
  | cons p rest ih =>
    obtain ⟨k₀, v₀⟩ := p
    simp only [List.map_cons, List.mem_cons] at h
    push_neg at h
    have hb : (k == k₀) = false := beq_eq_false_iff_ne.mpr h.1
    simp [List.lookup, hb, ih h.2]

/-- Lookup through a filter, when the keys are distinct: the looked-up entry
survives exactly when the filter keeps it. -/
theorem lookup_filter {β : Type} (l : List (String × β)) (q : String × β → Bool)
    (k : String) (hnd : (l.map Prod.fst).Nodup) :
    (l.filter q).lookup k =
      match l.lookup k with
      | some v => if q (k, v) then some v else none
      | none => none := by
  induction l with
  | nil => rfl
  | cons p rest ih =>
    obtain ⟨k₀, v₀⟩ := p
    simp only [List.map_cons, List.nodup_cons] at hnd
    cases hb : (k == k₀) with
    | true =>
      have hk : k = k₀ := eq_of_beq hb
      subst hk
      cases hq : q (k, v₀) with
      | true => simp [List.filter_cons, hq, List.lookup, hb]
      | false =>
        have hnone : (rest.filter q).lookup k = none := by
          apply lookup_none_of_not_mem
          intro hmem
          rcases List.mem_map.mp hmem with ⟨e, hmem', rfl⟩
          exact hnd.1 (List.mem_map_of_mem Prod.fst (List.mem_of_mem_filter hmem'))
        simp [List.filter_cons, hq, List.lookup, hb, hnone]
    | false =>
      cases hq : q (k₀, v₀) with
      | true => simp [List.filter_cons, hq, List.lookup, hb, ih hnd.2]
      | false => simp [List.filter_cons, hq, List.lookup, hb, ih hnd.2]

theorem lookup_map_entries (c : SigCache) (f : SigEntries → SigEntries) (s : String) :
    ((c.map fun p => (p.1, f p.2)).lookup s) = (c.lookup s).map f := by
  induction c with
  | nil => rfl
  | cons p rest ih =>
    obtain ⟨s₀, es₀⟩ := p
    cases hb : (s == s₀) <;> simp [List.lookup, hb, ih]

/-- The guard-free core of `IsInvalidSignature`. -/
def blVal (o : Option SigEntries) (g : String) (now : Nat) : Bool :=
  match o with
  | none => false
  | some es =>
    match es.lookup g with
    | none => false
    | some ts => decide (now - ts ≤ InvalidSignatureCacheTTL)

theorem IsInvalidSignature_eq_blVal (c : SigCache) (s g : String) (now : Nat)
    (hs : ¬ (s = "" ∨ g = "")) :
    IsInvalidSignature c s g now = blVal (c.lookup s) g now := by
  unfold IsInvalidSignature blVal
  rw [if_neg hs]

/-- A sweep pass never changes what is blacklisted at or after the sweep
time: entries it removes are already expired then, and removing an emptied
session cannot expose other entries. -/
theorem purge_transparent (c : SigCache) (now now' : Nat) (s g : String)
    (hwf : c.WF) (hle : now ≤ now') :
    IsInvalidSignature (purgeExpiredInvalidSignatures c now) s g now' =
      IsInvalidSignature c s g now' := by
  by_cases hs : s = "" ∨ g = ""
  · unfold IsInvalidSignature
    rw [if_pos hs, if_pos hs]
  · rw [IsInvalidSignature_eq_blVal _ _ _ _ hs, IsInvalidSignature_eq_blVal _ _ _ _ hs]
    obtain ⟨hnd, hents⟩ := hwf
    unfold purgeExpiredInvalidSignatures
    rw [lookup_filter _ _ _ (by simpa [List.map_map, Function.comp] using hnd)]
    rw [lookup_map_entries]
    cases hcl : c.lookup s with
    | none => simp [blVal]
    | some es =>
      have hndes : (es.map Prod.fst).Nodup := hents _ (lookup_mem hcl)
      simp only [Option.map_some']
      by_cases hfe : (es.filter fun e => ¬ now - e.2 > InvalidSignatureCacheTTL) = []
      · rw [hfe]
        simp only [decide_not]
        rw [if_neg (by simp)]
        cases hgl : es.lookup g with
        | none => simp [blVal, hgl]
        | some ts =>
          have hmem : (g, ts) ∈ es := lookup_mem hgl
          have hkeep := List.filter_eq_nil_iff.mp hfe _ hmem
          simp only [decide_eq_true_eq, not_not] at hkeep
          have hexp' : InvalidSignatureCacheTTL < now' - ts :=
            lt_of_lt_of_le hkeep (Nat.sub_le_sub_right hle ts)
          simp [blVal, hgl, Nat.not_le.mpr hexp']
      · rw [if_pos (by simpa using hfe)]
        simp only [blVal]
        rw [lookup_filter es _ g hndes]
        cases hgl : es.lookup g with
        | none => simp
        | some ts =>
          simp only
          by_cases hk : now - ts > InvalidSignatureCacheTTL
          · have hexp' : InvalidSignatureCacheTTL < now' - ts :=
              lt_of_lt_of_le hk (Nat.sub_le_sub_right hle ts)
            simp [hk, Nat.not_le.mpr hexp']
          · simp [hk]

theorem lookup_filter_ne_self {β : Type} (l : List (String × β)) (k : String) :
    (l.filter fun p => p.1 ≠ k).lookup k = none := by
  induction l with
  | nil => rfl
  | cons p rest ih =>
    obtain ⟨k₀, v₀⟩ := p
    by_cases h : k₀ = k
    · subst h
      simp only [List.filter_cons]
      rw [if_neg (by simp)]
      exact ih
    · simp only [List.filter_cons]
      rw [if_pos (by simp [h])]
      have hb : (k == k₀) = false := beq_eq_false_iff_ne.mpr (fun e => h e.symm)
      simp [List.lookup, hb, ih]
      exact fun a b _ h' e => h' e.symm

/-- **C4** (claims about the blacklist cache): recording makes a pair
blacklisted at once; clearing a session unblacklists every signature under
it; empty session or signature is never blacklisted; a pair is blacklisted
exactly when an entry of age at most the 3-hour TTL exists; and a sweep pass
leaves the blacklist relation unchanged at any time at or after the sweep. -/
theorem invalid_signature_cache_contract :
    (∀ (c : SigCache) (s g : String) (now : Nat), s ≠ "" → g ≠ "" →
        IsInvalidSignature (CacheInvalidSignature c s g now) s g now = true) ∧
    (∀ (c : SigCache) (s g : String) (now : Nat),
        IsInvalidSignature (ClearInvalidSignatureCache c s) s g now = false) ∧
    (∀ (c : SigCache) (s g : String) (now : Nat), s = "" ∨ g = "" →
        IsInvalidSignature c s g now = false) ∧
    (∀ (c : SigCache) (s g : String) (now : Nat),
        IsInvalidSignature c s g now = true ↔
          s ≠ "" ∧ g ≠ "" ∧
            ∃ ts, cacheFind c s g = some ts ∧ now - ts ≤ InvalidSignatureCacheTTL) ∧
    (∀ (c : SigCache) (s g : String) (now now' : Nat), c.WF → now ≤ now' →
        IsInvalidSignature (purgeExpiredInvalidSignatures c now) s g now' =
          IsInvalidSignature c s g now') := by
  refine ⟨?_, ?_, ?_, ?_, ?_⟩
  · intro c s g now hs hg
    have hns : ¬ (s = "" ∨ g = "") := by tauto
    unfold CacheInvalidSignature
    rw [if_neg hns, IsInvalidSignature_eq_blVal _ _ _ _ hns, lookup_cacheSet_self]
    simp only [blVal]
    rw [entriesSet_lookup_self]
    simp
  · intro c s g now
    by_cases hs : s = "" ∨ g = ""
    · unfold IsInvalidSignature
      rw [if_pos hs]
    · rw [IsInvalidSignature_eq_blVal _ _ _ _ hs]
      push_neg at hs
      unfold ClearInvalidSignatureCache
      rw [if_pos hs.1, lookup_filter_ne_self]
      rfl
  · intro c s g now h
    unfold IsInvalidSignature
    rw [if_pos h]
  · intro c s g now
    by_cases hs : s = "" ∨ g = ""
    · unfold IsInvalidSignature
      rw [if_pos hs]
      rcases hs with h | h <;> simp [h]
    · rw [IsInvalidSignature_eq_blVal _ _ _ _ hs]
      push_neg at hs
      unfold blVal cacheFind
      cases hcl : c.lookup s with
      | none => simp
      | some es =>
        cases hgl : es.lookup g with
        | none => simp [hgl]
        | some ts => simp [hgl, hs.1, hs.2]
  · intro c s g now now' hwf hle
    exact purge_transparent c now now' s g hwf hle

/-- Concrete instantiation of the cache contract. -/
theorem invalid_signature_cache_contract_witness :
    IsInvalidSignature (CacheInvalidSignature [] "s" "g" 5) "s" "g" 5 = true ∧
    IsInvalidSignature (ClearInvalidSignatureCache (CacheInvalidSignature [] "s" "g" 5) "s")
      "s" "g" 5 = false ∧
    IsInvalidSignature [("s", [("g", 0)])] "" "g" 0 = false ∧
    (IsInvalidSignature [("s", [("g", 0)])] "s" "g" 3 = true ↔
      "s" ≠ "" ∧ "g" ≠ "" ∧
        ∃ ts, cacheFind [("s", [("g", 0)])] "s" "g" = some ts ∧
          3 - ts ≤ InvalidSignatureCacheTTL) ∧
    IsInvalidSignature (purgeExpiredInvalidSignatures [("s", [("g", 0)])] 20000)
        "s" "g" 20000 =
      IsInvalidSignature [("s", [("g", 0)])] "s" "g" 20000 :=
  ⟨invalid_signature_cache_contract.1 [] "s" "g" 5 (by decide) (by decide),
   invalid_signature_cache_contract.2.1 (CacheInvalidSignature [] "s" "g" 5) "s" "g" 5,
   invalid_signature_cache_contract.2.2.1 [("s", [("g", 0)])] "" "g" 0 (Or.inl rfl),
   invalid_signature_cache_contract.2.2.2.1 [("s", [("g", 0)])] "s" "g" 3,
   invalid_signature_cache_contract.2.2.2.2 [("s", [("g", 0)])] "s" "g" 20000 20000
     (by decide) (le_refl _)⟩

/-- **C10**: on any payload whose top-level `messages` field is missing or
not a JSON array, selective strip (for every session, cache state and time)
and full strip, on both the Claude and the Antigravity paths, return the
input unchanged with `changed = false`; the sanitizers are total and signal
no error. -/
theorem sanitizers_total_on_malformed_payloads :
    ∀ (payload : Json) (sid : String) (c : SigCache) (now : Nat),
      messagesOf payload = none →
      sanitizeClaudePayloadForInvalidThinking payload sid c now = (payload, false) ∧
      stripClaudeThinkingBlocksForRetry payload = (payload, false) ∧
      sanitizeAntigravityPayloadForInvalidThinking payload sid c now = (payload, false) ∧
      stripAntigravityThinkingBlocksForRetry payload = (payload, false) := by
  intro payload sid c now h
  have hrepl : ∀ pred, replaceThinkingBlocks payload pred = (payload, false) :=
    fun pred => replaceThinkingBlocks_no_messages payload pred h
  by_cases hsid : sid = "" <;>
    simp [sanitizeClaudePayloadForInvalidThinking, stripClaudeThinkingBlocksForRetry,
      sanitizeAntigravityPayloadForInvalidThinking, stripAntigravityThinkingBlocksForRetry,
      replaceAntigravityThinkingBlocks, hsid, hrepl]

/-- A malformed payload: `messages` present but not an array. -/
def malformedPayload : Json := .obj [("messages", .str "nope"), ("model", .str "m")]

/-- Concrete instantiation of sanitizer totality. -/
theorem sanitizers_total_on_malformed_payloads_witness :
    sanitizeClaudePayloadForInvalidThinking malformedPayload "sess" [] 0 =
        (malformedPayload, false) ∧
      stripClaudeThinkingBlocksForRetry malformedPayload = (malformedPayload, false) ∧
      sanitizeAntigravityPayloadForInvalidThinking malformedPayload "sess" [] 0 =
        (malformedPayload, false) ∧
      stripAntigravityThinkingBlocksForRetry malformedPayload = (malformedPayload, false) :=
  sanitizers_total_on_malformed_payloads malformedPayload "sess" [] 0 rfl

/-- Pointwise characterization of the sanitizer walk, for any per-part
replacement condition `cond` realising the predicate: the walk maps the
message list elementwise, replaces exactly the parts satisfying `cond` by
the placeholder, keeps every other key and every ordering intact, and
reports a change exactly when some part satisfies `cond`. -/
theorem replaceThinkingBlocks_pointwise (pred : Option (String → Bool))
    (cond : Json → Bool)
    (hpart : ∀ part, replacePart pred part =
      (if cond part then thinkingPlaceholder else part, cond part))
    (payload : Json) :
    (∀ ms, messagesOf payload = some ms →
      ∃ ms', messagesOf (replaceThinkingBlocks payload pred).1 = some ms' ∧
        ms'.length = ms.length ∧
        (∀ i m, ms.get? i = some m → ∃ m', ms'.get? i = some m' ∧
          (∀ k, k ≠ "content" → m'.getKey k = m.getKey k) ∧
          (contentOf m = none → m' = m) ∧
          (∀ ps, contentOf m = some ps →
            ∃ ps', contentOf m' = some ps' ∧ ps'.length = ps.length ∧
              ∀ j, ps'.get? j = (ps.get? j).map fun part =>
                if cond part then thinkingPlaceholder else part))) ∧
    (∀ k, k ≠ "messages" →
      (replaceThinkingBlocks payload pred).1.getKey k = payload.getKey k) ∧
    ((replaceThinkingBlocks payload pred).2 = true ↔
      ∃ ms, messagesOf payload = some ms ∧ ∃ m ∈ ms, ∃ ps, contentOf m = some ps ∧
        ∃ part ∈ ps, cond part = true) := by
  have hfst : (fun part => (replacePart pred part).1) =
      (fun part => if cond part then thinkingPlaceholder else part) :=
    funext fun part => by rw [hpart]
  have hmsg : ∀ m, (replaceMessage pred m).2 = true ↔
      ∃ ps, contentOf m = some ps ∧ ∃ part ∈ ps, cond part = true := by
    intro m
    cases hcm : contentOf m with
    | none =>
      rw [replaceMessage_no_content m pred hcm]
      simp
    | some ps =>
      obtain ⟨-, -, hflag⟩ := replaceMessage_content m pred ps hcm
      rw [hflag]
      constructor
      · intro h
        rcases List.any_eq_true.mp h with ⟨part, hmem, hc⟩
        rw [hpart part] at hc
        exact ⟨ps, rfl, part, hmem, hc⟩
      · rintro ⟨ps', hps', part, hmem, hc⟩
        obtain rfl : ps = ps' := Option.some.inj hps'
        exact List.any_eq_true.mpr ⟨part, hmem, by rw [hpart part]; exact hc⟩
  cases hms : messagesOf payload with
  | none =>
    rw [replaceThinkingBlocks_no_messages payload pred hms]
    refine ⟨?_, ?_, ?_⟩
    · intro ms h
      simp at h
    · intro k _
      rfl
    · simp
  | some ms =>
    obtain ⟨hm1, hm2, hm3⟩ := replaceThinkingBlocks_messages payload pred ms hms
    refine ⟨?_, hm2, ?_⟩
    · intro ms0 h
      obtain rfl : ms = ms0 := Option.some.inj h
      refine ⟨_, hm1, by simp, ?_⟩
      intro i m hget
      refine ⟨(replaceMessage pred m).1, ?_, ?_, ?_, ?_⟩
      · rw [List.get?_map, hget]
        rfl
      · intro k hk
        cases hcm : contentOf m with
        | none => rw [replaceMessage_no_content m pred hcm]
        | some ps => exact (replaceMessage_content m pred ps hcm).2.1 k hk
      · intro hcm
        rw [replaceMessage_no_content m pred hcm]
      · intro ps hcm
        obtain ⟨hc1, -, -⟩ := replaceMessage_content m pred ps hcm
        refine ⟨_, hc1, by simp, ?_⟩
        intro j
        rw [List.get?_map, hfst]
    · rw [hm3]
      constructor
      · intro h
        rcases List.any_eq_true.mp h with ⟨m, hmem, hflag⟩
        rcases (hmsg m).mp hflag with ⟨ps, hcm, part, hpm, hc⟩
        exact ⟨ms, rfl, m, hmem, ps, hcm, part, hpm, hc⟩
      · rintro ⟨ms0, hms0, m, hmem, ps, hcm, part, hpm, hc⟩
        obtain rfl : ms = ms0 := Option.some.inj hms0
        exact List.any_eq_true.mpr ⟨m, hmem, (hmsg m).mpr ⟨ps, hcm, part, hpm, hc⟩⟩

/-- After a full strip no part of any message has type `"thinking"`. -/
theorem strip_no_thinking_left (payload : Json) :
    ∀ ms', messagesOf (stripClaudeThinkingBlocksForRetry payload).1 = some ms' →
      ∀ m' ∈ ms', ∀ ps', contentOf m' = some ps' →
        ∀ part' ∈ ps', gstr (part'.getKey "type") ≠ "thinking" := by
  intro ms' hms' m' hmem' ps' hps' part' hpart'
  unfold stripClaudeThinkingBlocksForRetry at hms'
  cases hms : messagesOf payload with
  | none =>
    rw [replaceThinkingBlocks_no_messages payload none hms] at hms'
    have h2 : messagesOf payload = some ms' := hms'
    rw [hms] at h2
    cases h2
  | some ms =>
    obtain ⟨hm1, -, -⟩ := replaceThinkingBlocks_messages payload none ms hms
    rw [hm1] at hms'
    obtain rfl := Option.some.inj hms'
    rcases List.mem_map.mp hmem' with ⟨m, hm, rfl⟩
    cases hcm : contentOf m with
    | none =>
      rw [replaceMessage_no_content m none hcm] at hps'
      -- the message was returned unchanged, so its content cannot be an
      -- array here: contradiction with the part membership
      have h2 : contentOf m = some ps' := hps'
      rw [hcm] at h2
      cases h2
    | some ps =>
      obtain ⟨hc1, -, -⟩ := replaceMessage_content m none ps hcm
      rw [hc1] at hps'
      obtain rfl := Option.some.inj hps'
      rcases List.mem_map.mp hpart' with ⟨part, hp, rfl⟩
      rw [show (replacePart none part).1 =
          if gstr (part.getKey "type") == "thinking" then thinkingPlaceholder else part
        from by rw [replacePart_none]]
      by_cases hty : gstr (part.getKey "type") = "thinking"
      · rw [if_pos (by simp [hty])]
        decide
      · rw [if_neg (by simp [hty])]
        exact hty

/-- A payload with no thinking parts is returned unchanged by the walk. -/
theorem replaceThinkingBlocks_none_of_no_thinking (payload : Json)
    (h : ∀ ms, messagesOf payload = some ms →
      ∀ m ∈ ms, ∀ ps, contentOf m = some ps →
        ∀ part ∈ ps, gstr (part.getKey "type") ≠ "thinking") :
    replaceThinkingBlocks payload none = (payload, false) := by
  have hflag : (replaceThinkingBlocks payload none).2 = false := by
    rcases Bool.eq_false_or_eq_true (replaceThinkingBlocks payload none).2 with ht | hf
    · obtain ⟨-, -, hiff⟩ := replaceThinkingBlocks_pointwise none _ replacePart_none payload
      rcases hiff.mp ht with ⟨ms, hms, m, hmem, ps, hcm, part, hpm, hc⟩
      exact absurd (by simpa using hc) (h ms hms m hmem ps hcm part hpm)
    · exact hf
  have hun := replaceThinkingBlocks_unchanged none payload hflag
  calc replaceThinkingBlocks payload none
      = ((replaceThinkingBlocks payload none).1, (replaceThinkingBlocks payload none).2) := rfl
    _ = (payload, false) := by rw [hun, hflag]

/-- **C6**: full strip replaces exactly the parts of type `"thinking"`
(regardless of signature or blacklist state) with the fixed placeholder,
leaves every other key, message and part unchanged in place, reports
`changed = true` exactly when at least one part was replaced, and is
idempotent: a second application returns its input unchanged. -/
theorem full_strip_contract :
    ∀ payload : Json,
      (∀ ms, messagesOf payload = some ms →
        ∃ ms', messagesOf (stripClaudeThinkingBlocksForRetry payload).1 = some ms' ∧
          ms'.length = ms.length ∧
          (∀ i m, ms.get? i = some m → ∃ m', ms'.get? i = some m' ∧
            (∀ k, k ≠ "content" → m'.getKey k = m.getKey k) ∧
            (contentOf m = none → m' = m) ∧
            (∀ ps, contentOf m = some ps →
              ∃ ps', contentOf m' = some ps' ∧ ps'.length = ps.length ∧
                ∀ j, ps'.get? j = (ps.get? j).map fun part =>
                  if gstr (part.getKey "type") == "thinking" then thinkingPlaceholder
                  else part))) ∧
      (∀ k, k ≠ "messages" →
        (stripClaudeThinkingBlocksForRetry payload).1.getKey k = payload.getKey k) ∧
      ((stripClaudeThinkingBlocksForRetry payload).2 = true ↔
        ∃ ms, messagesOf payload = some ms ∧ ∃ m ∈ ms, ∃ ps, contentOf m = some ps ∧
          ∃ part ∈ ps, gstr (part.getKey "type") = "thinking") ∧
      stripClaudeThinkingBlocksForRetry (stripClaudeThinkingBlocksForRetry payload).1 =
        ((stripClaudeThinkingBlocksForRetry payload).1, false) := by
  intro payload
  obtain ⟨h1, h2, h3⟩ :=
    replaceThinkingBlocks_pointwise none _ replacePart_none payload
  refine ⟨h1, h2, ?_, ?_⟩
  · unfold stripClaudeThinkingBlocksForRetry
    rw [h3]
    constructor
    · rintro ⟨ms, hms, m, hm, ps, hps, part, hp, hc⟩
      exact ⟨ms, hms, m, hm, ps, hps, part, hp, by simpa using hc⟩
    · rintro ⟨ms, hms, m, hm, ps, hps, part, hp, hc⟩
      exact ⟨ms, hms, m, hm, ps, hps, part, hp, by simpa using hc⟩
  · exact replaceThinkingBlocks_none_of_no_thinking _
      (fun ms' hms' m' hm' ps' hps' part' hp' =>
        strip_no_thinking_left payload ms' hms' m' hm' ps' hps' part' hp')

/-- A payload exercising every case of the full-strip contract: a flat
message, a thinking part, a text part and a redacted-thinking part. -/
def fullStripSample : Json := .obj [("model", .str "claude"), ("messages", .arr [
  .obj [("role", .str "user"), ("content", .str "question")],
  .obj [("role", .str "assistant"), ("content", .arr [
    .obj [("type", .str "thinking"), ("thinking", .str "t"), ("signature", .str "sg")],
    .obj [("type", .str "text"), ("text", .str "answer")]])]])]

/-- Concrete instantiation of the full-strip contract. -/
theorem full_strip_contract_witness :
    (stripClaudeThinkingBlocksForRetry fullStripSample).2 = true ∧
    (stripClaudeThinkingBlocksForRetry fullStripSample).1.getKey "model" =
      some (.str "claude") ∧
    stripClaudeThinkingBlocksForRetry (stripClaudeThinkingBlocksForRetry fullStripSample).1 =
      ((stripClaudeThinkingBlocksForRetry fullStripSample).1, false) := by
  have h := full_strip_contract fullStripSample
  exact ⟨by decide, h.2.1 "model" (by decide), h.2.2.2⟩

/-- **C5**: selective strip replaces exactly the thinking-typed parts whose
signature is blacklisted for the session with the fixed placeholder text
block, leaves every other key, message and part unchanged in place
(preserving order), and returns the input unchanged with `changed = false`
when the session token is empty or when no part is blacklisted. -/
theorem selective_strip_contract (payload : Json) (sid : String) (c : SigCache) (now : Nat) :
    (sid = "" → sanitizeClaudePayloadForInvalidThinking payload sid c now = (payload, false)) ∧
    (sid ≠ "" →
      (∀ ms, messagesOf payload = some ms →
        ∃ ms', messagesOf (sanitizeClaudePayloadForInvalidThinking payload sid c now).1 =
            some ms' ∧
          ms'.length = ms.length ∧
          (∀ i m, ms.get? i = some m → ∃ m', ms'.get? i = some m' ∧
            (∀ k, k ≠ "content" → m'.getKey k = m.getKey k) ∧
            (contentOf m = none → m' = m) ∧
            (∀ ps, contentOf m = some ps →
              ∃ ps', contentOf m' = some ps' ∧ ps'.length = ps.length ∧
                ∀ j, ps'.get? j = (ps.get? j).map fun part =>
                  if thinkingBlacklisted c sid now part then thinkingPlaceholder
                  else part))) ∧
      (∀ k, k ≠ "messages" →
        (sanitizeClaudePayloadForInvalidThinking payload sid c now).1.getKey k =
          payload.getKey k) ∧
      ((sanitizeClaudePayloadForInvalidThinking payload sid c now).2 = true ↔
        ∃ ms, messagesOf payload = some ms ∧ ∃ m ∈ ms, ∃ ps, contentOf m = some ps ∧
          ∃ part ∈ ps, thinkingBlacklisted c sid now part = true)) ∧
    ((sanitizeClaudePayloadForInvalidThinking payload sid c now).2 = false →
      (sanitizeClaudePayloadForInvalidThinking payload sid c now).1 = payload) := by
  refine ⟨?_, ?_, ?_⟩
  · intro h
    unfold sanitizeClaudePayloadForInvalidThinking
    rw [if_pos h]
  · intro h
    have heq : sanitizeClaudePayloadForInvalidThinking payload sid c now =
        replaceThinkingBlocks payload
          (some fun sig => (sig != "") && IsInvalidSignature c sid sig now) := by
      unfold sanitizeClaudePayloadForInvalidThinking
      rw [if_neg h]
    rw [heq]
    exact replaceThinkingBlocks_pointwise _ _ (replacePart_sanitize c sid now) payload
  · intro h
    by_cases hsid : sid = ""
    · simp [sanitizeClaudePayloadForInvalidThinking, hsid]
    · have heq : sanitizeClaudePayloadForInvalidThinking payload sid c now =
          replaceThinkingBlocks payload
            (some fun sig => (sig != "") && IsInvalidSignature c sid sig now) := by
        unfold sanitizeClaudePayloadForInvalidThinking
        rw [if_neg hsid]
      rw [heq] at h ⊢
      exact replaceThinkingBlocks_unchanged _ _ h

/-- A payload with one blacklisted and one non-blacklisted thinking part. -/
def selSample : Json := .obj [("model", .str "claude"), ("messages", .arr [
  .obj [("role", .str "user"), ("content", .str "question")],
  .obj [("role", .str "assistant"), ("content", .arr [
    .obj [("type", .str "thinking"), ("thinking", .str "a"), ("signature", .str "sigA")],
    .obj [("type", .str "thinking"), ("thinking", .str "b"), ("signature", .str "sigB")],
    .obj [("type", .str "text"), ("text", .str "answer")]])]])]

/-- A cache blacklisting `sigA` for session `sess`. -/
def selCache : SigCache := [("sess", [("sigA", 0)])]

/-- Concrete instantiation of the selective-strip contract. -/
theorem selective_strip_contract_witness :
    sanitizeClaudePayloadForInvalidThinking selSample "" selCache 5 = (selSample, false) ∧
    (sanitizeClaudePayloadForInvalidThinking selSample "sess" selCache 5).1.getKey "model" =
      selSample.getKey "model" :=
  ⟨(selective_strip_contract selSample "" selCache 5).1 rfl,
   ((selective_strip_contract selSample "sess" selCache 5).2.1 (by decide)).2.1 "model"
     (by decide)⟩

/-- `gjson.GetBytes(p, "messages.<i>.content.<j>.type").String()`. -/
def blockTypeAt (p : Json) (i j : Nat) : String :=
  gstr (((((p.getKey "messages").bind (Json.getIdx · i)).bind
    (Json.getKey · "content")).bind (Json.getIdx · j)).bind (Json.getKey · "type"))

/-- A payload whose only content block is a `redacted_thinking` block. -/
def redactedSample : Json := .obj [("messages", .arr [
  .obj [("role", .str "assistant"), ("content", .arr [
    .obj [("type", .str "redacted_thinking"), ("data", .str "ABCD")]])]])]

/-- **C7**: the claim says full strip replaces `redacted_thinking` blocks as
well; evaluating the code on a payload whose only block is a
`redacted_thinking` block shows both full-strip paths return it unchanged
with `changed = false` — the walk matches only the literal type
`"thinking"` — and the selective path likewise never touches it. -/
theorem redacted_thinking_not_replaced :
    blockTypeAt redactedSample 0 0 = "redacted_thinking" ∧
    stripClaudeThinkingBlocksForRetry redactedSample = (redactedSample, false) ∧
    stripAntigravityThinkingBlocksForRetry redactedSample = (redactedSample, false) ∧
    sanitizeClaudePayloadForInvalidThinking redactedSample "sess"
      [("sess", [("ABCD", 0)])] 0 = (redactedSample, false) :=
  ⟨rfl, rfl, rfl, rfl⟩

/-- The spec's own backtick example: all three keywords appear as
independent substrings, but "invalid signature" is not contiguous. -/
def backtickBody : Body := .text "Invalid `signature` in `thinking` block"

/-- **C1** counterexample: at status 400 this body contains "invalid",
"signature" and "thinking" as independent case-insensitive substrings, so
the claimed uniform rule classifies it as a signature error — and the
Antigravity and streaming-fallback classifiers indeed accept it — but the
Claude-path classifier rejects it, since it requires the contiguous phrase
"invalid signature".  The single rule does not hold at every call site. -/
theorem classifier_rule_not_uniform_counterexample :
    goContains (goToLower backtickBody.raw) "invalid" = true ∧
    goContains (goToLower backtickBody.raw) "signature" = true ∧
    goContains (goToLower backtickBody.raw) "thinking" = true ∧
    extractErrorMessage backtickBody = backtickBody.raw ∧
    isAntigravityThinkingSignatureError 400 backtickBody = true ∧
    isThinkingSignatureErrorText backtickBody.raw = true ∧
    isClaudeThinkingInvalidSignatureError 400 backtickBody = false := by
  decide

theorem goContains_mono (s sub sub' : String) (hsub : sub'.data <:+: sub.data)
    (h : goContains s sub = true) : goContains s sub' = true :=
  (goContains_iff s sub').mpr (List.IsInfix.trans hsub ((goContains_iff s sub).mp h))

/-- **C1** amended: every classifier returns false for non-400 statuses; for
status 400 the Antigravity classifier tests the three keywords as
independent case-insensitive substrings of its extracted message, and the
streaming-fallback classifier accepts any error text containing the three
keywords; the Claude-path classifier instead tests the contiguous phrase
"invalid signature" together with "thinking" over its (non-descending)
extraction — a strictly stronger test, so the rule is not uniform. -/
theorem classifier_rules_per_call_site :
    (∀ (status : Int) (body : Body), status ≠ 400 →
      isClaudeThinkingInvalidSignatureError status body = false ∧
      isAntigravityThinkingSignatureError status body = false) ∧
    (∀ body : Body, isClaudeThinkingInvalidSignatureError 400 body =
      (goContains (goToLower (extractErrorMessage body)) "invalid signature" &&
       goContains (goToLower (extractErrorMessage body)) "thinking")) ∧
    (∀ body : Body, isAntigravityThinkingSignatureError 400 body =
      (goContains (goToLower (extractAntigravityErrorMessage body)) "invalid" &&
       goContains (goToLower (extractAntigravityErrorMessage body)) "signature" &&
       goContains (goToLower (extractAntigravityErrorMessage body)) "thinking")) ∧
    (∀ body : Body, isClaudeThinkingInvalidSignatureError 400 body = true →
      goContains (goToLower (extractErrorMessage body)) "invalid" = true ∧
      goContains (goToLower (extractErrorMessage body)) "signature" = true ∧
      goContains (goToLower (extractErrorMessage body)) "thinking" = true) ∧
    (∀ s : String, containsThinkingSignaturePattern (goToLower s) = true →
      isThinkingSignatureErrorText s = true) := by
  refine ⟨?_, ?_, ?_, ?_, ?_⟩
  · intro status body h
    constructor <;>
      [unfold isClaudeThinkingInvalidSignatureError;
       unfold isAntigravityThinkingSignatureError] <;>
      rw [if_pos h]
  · intro body
    unfold isClaudeThinkingInvalidSignatureError
    rw [if_neg (by omega)]
  · intro body
    unfold isAntigravityThinkingSignatureError
    rw [if_neg (by omega)]
  · intro body h
    unfold isClaudeThinkingInvalidSignatureError at h
    rw [if_neg (by omega)] at h
    simp only [Bool.and_eq_true] at h
    obtain ⟨h1, h2⟩ := h
    exact ⟨goContains_mono _ _ _ (by decide) h1,
           goContains_mono _ _ _ (by decide) h1, h2⟩
  · intro s h
    have hs : s ≠ "" := by
      intro he
      subst he
      exact absurd h (by decide)
    unfold isThinkingSignatureErrorText
    rw [if_neg hs, if_pos h]

/-- Concrete instantiation of the per-call-site classifier rules. -/
theorem classifier_rules_per_call_site_witness :
    (isClaudeThinkingInvalidSignatureError 401 backtickBody = false ∧
      isAntigravityThinkingSignatureError 401 backtickBody = false) ∧
    (goContains (goToLower (extractErrorMessage
        (Body.text "Invalid signature in thinking block"))) "invalid" = true ∧
      goContains (goToLower (extractErrorMessage
        (Body.text "Invalid signature in thinking block"))) "signature" = true ∧
      goContains (goToLower (extractErrorMessage
        (Body.text "Invalid signature in thinking block"))) "thinking" = true) ∧
    isThinkingSignatureErrorText "Invalid signature in thinking block" = true :=
  ⟨classifier_rules_per_call_site.1 401 backtickBody (by omega),
   classifier_rules_per_call_site.2.2.2.1
     (Body.text "Invalid signature in thinking block") (by decide),
   classifier_rules_per_call_site.2.2.2.2 "Invalid signature in thinking block" (by decide)⟩

/-! ## Session-id derivation: characterization -/

/-- The text of the first user message with non-empty `userMessageText`. -/
def firstUserText (msgs : List Json) : Option String :=
  msgs.findSome? fun msg =>
    if gstr (msg.getKey "role") ≠ "user" then none
    else if userMessageText msg = "" then none
    else some (userMessageText msg)

theorem deriveLoop_eq_firstUserText (msgs : List Json) :
    deriveLoop msgs =
      match firstUserText msgs with
      | some t => hexEncode ((sha256 (utf8Bytes t)).take 16)
      | none => "" := by
  induction msgs with
  | nil => rfl
  | cons msg rest ih =>
    by_cases hrole : gstr (msg.getKey "role") ≠ "user"
    · simp only [deriveLoop, firstUserText, List.findSome?_cons, if_pos hrole]
      exact ih
    · by_cases htext : userMessageText msg = ""
      · simp only [deriveLoop, firstUserText, List.findSome?_cons]
        rw [if_neg hrole, if_neg (not_not_intro htext), if_neg hrole, if_pos htext]
        exact ih
      · simp only [deriveLoop, firstUserText, List.findSome?_cons]
        rw [if_neg hrole, if_pos htext, if_neg hrole, if_neg htext]

theorem wordBytes_lt (w : Nat) : ∀ b ∈ wordBytes w, b < 256 := by
  intro b hb
  simp [wordBytes] at hb
  rcases hb with rfl | rfl | rfl | rfl <;> exact Nat.mod_lt _ (by norm_num)

theorem sha256_bytes_lt (m : List Nat) : ∀ b ∈ sha256 m, b < 256 := by
  intro b hb
  simp only [sha256, List.mem_append] at hb
  rcases hb with ((((((h | h) | h) | h) | h) | h) | h) | h <;> exact wordBytes_lt _ _ h

theorem hexDigit_cases (n : Nat) (h : n < 16) :
    (hexDigit n).isDigit ∨ ('a' ≤ hexDigit n ∧ hexDigit n ≤ 'f') := by
  interval_cases n <;> decide

theorem hexEncode_chars (bs : List Nat) (hb : ∀ b ∈ bs, b < 256) :
    ∀ ch ∈ (hexEncode bs).data, ch.isDigit ∨ ('a' ≤ ch ∧ ch ≤ 'f') := by
  intro ch hch
  have hch' : ch ∈ bs.flatMap fun b => [hexDigit (b / 16), hexDigit (b % 16)] := hch
  rcases List.mem_flatMap.mp hch' with ⟨b, hbm, hin⟩
  have hblt := hb b hbm
  simp only [List.mem_cons, List.mem_singleton] at hin
  rcases hin with rfl | rfl | h
  · exact hexDigit_cases _ (by omega)
  · exact hexDigit_cases _ (Nat.mod_lt _ (by norm_num))
  · cases h

/-- Modelled from the spec: the claim's extraction of a user message's text
— the flat string content, or the text of its *first content element* when
content is a structured array (`deriveSessionIDFromClaudeMessages` is in
src/; this definition renders the claim's own description for comparison). -/
def specUserMessageText (msg : Json) : Option String :=
  if gstr (msg.getKey "role") = "user" then
    match msg.getKey "content" with
    | some (.str s) => if s = "" then none else some s
    | some (.arr parts) =>
      match parts.head? with
      | some part =>
        match part.getKey "text" with
        | some (.str t) => if t = "" then none else some t
        | _ => none
      | none => none
    | _ => none
  else none

/-- A payload whose only user message has structured content with no text
element: under the claim's extraction it has no extractable text. -/
def imageOnlySample : Json := .obj [("messages", .arr [
  .obj [("role", .str "user"), ("content", .arr [
    .obj [("type", .str "image"), ("source", .str "x")]])]])]

/-- **C8** counterexample: no user message of this payload has extractable
text in the claim's sense (the first content element carries no text), so
the claim demands the empty token — but the code returns a non-empty token,
because gjson stringifies the structured content to its raw JSON, which is
never empty, and hashes that. -/
theorem session_id_array_content_counterexample :
    ((messagesOf imageOnlySample).getD []).findSome? specUserMessageText = none ∧
    deriveSessionIDFromClaudeMessages imageOnlySample ≠ "" := by
  constructor
  · rfl
  · decide

/-- **C8** amended: the scan returns the hash of the first user message
whose gjson-stringified content (or, only when that is empty, its
`content.0.text`) is non-empty — so a structured content array is hashed as
its raw JSON text, not as its first element's text; the token is the
32-lowercase-hex-character encoding of the first 16 bytes of the SHA-256 of
that text; the token is empty exactly when no user message yields text, and
an empty token makes record, lookup and selective strip no-ops. -/
theorem session_id_derivation_contract :
    (∀ body : Json,
      deriveSessionIDFromClaudeMessages body =
        match messagesOf body with
        | some msgs =>
          (match firstUserText msgs with
           | some t => hexEncode ((sha256 (utf8Bytes t)).take 16)
           | none => "")
        | none => "") ∧
    (∀ body : Json, deriveSessionIDFromClaudeMessages body = "" ∨
      ((deriveSessionIDFromClaudeMessages body).length = 32 ∧
        ∀ ch ∈ (deriveSessionIDFromClaudeMessages body).data,
          ch.isDigit ∨ ('a' ≤ ch ∧ ch ≤ 'f'))) ∧
    (∀ (c : SigCache) (g : String) (t : Nat) (p : Json),
      CacheInvalidSignature c "" g t = c ∧
      IsInvalidSignature c "" g t = false ∧
      sanitizeClaudePayloadForInvalidThinking p "" c t = (p, false)) := by
  have hchar : ∀ body : Json,
      deriveSessionIDFromClaudeMessages body =
        match messagesOf body with
        | some msgs =>
          (match firstUserText msgs with
           | some t => hexEncode ((sha256 (utf8Bytes t)).take 16)
           | none => "")
        | none => "" := by
    intro body
    unfold deriveSessionIDFromClaudeMessages messagesOf
    cases hk : body.getKey "messages" with
    | none => rfl
    | some j =>
      cases j with
      | arr msgs => exact deriveLoop_eq_firstUserText msgs
      | null => rfl
      | bool b => rfl
      | num n => rfl
      | str s => rfl
      | obj fs => rfl
  refine ⟨hchar, ?_, ?_⟩
  · intro body
    rw [hchar body]
    cases hms : messagesOf body with
    | none => exact Or.inl rfl
    | some msgs =>
      have hred : (match (some msgs : Option (List Json)) with
          | some msgs =>
            (match firstUserText msgs with
             | some t => hexEncode ((sha256 (utf8Bytes t)).take 16)
             | none => "")
          | none => "") =
          (match firstUserText msgs with
           | some t => hexEncode ((sha256 (utf8Bytes t)).take 16)
           | none => "") := rfl
      rw [hred]
      cases hf : firstUserText msgs with
      | none => exact Or.inl rfl
      | some t =>
        refine Or.inr ⟨?_, ?_⟩
        · show (hexEncode ((sha256 (utf8Bytes t)).take 16)).length = 32
          rw [hexEncode_length, List.length_take, sha256_length]
          decide
        · show ∀ ch ∈ (hexEncode ((sha256 (utf8Bytes t)).take 16)).data,
            ch.isDigit ∨ ('a' ≤ ch ∧ ch ≤ 'f')
          exact hexEncode_chars _ fun b hb =>
            sha256_bytes_lt _ _ (List.mem_of_mem_take hb)
  · intro c g t p
    refine ⟨?_, ?_, ?_⟩
    · unfold CacheInvalidSignature
      rw [if_pos (Or.inl rfl)]
    · unfold IsInvalidSignature
      rw [if_pos (Or.inl rfl)]
    · unfold sanitizeClaudePayloadForInvalidThinking
      rw [if_pos rfl]

/-- A request whose first message is not from the user and whose first user
message carries flat string content. -/
def sessionSample : Json := .obj [("messages", .arr [
  .obj [("role", .str "assistant"), ("content", .str "welcome")],
  .obj [("role", .str "user"), ("content", .str "hi")]])]

/-- Concrete instantiation of the session-id contract: the derived token of
a concrete request is non-empty, 32 characters of lowercase hex, and the
empty token disables the cache operations. -/
theorem session_id_derivation_contract_witness :
    ((deriveSessionIDFromClaudeMessages sessionSample).length = 32 ∧
      ∀ ch ∈ (deriveSessionIDFromClaudeMessages sessionSample).data,
        ch.isDigit ∨ ('a' ≤ ch ∧ ch ≤ 'f')) ∧
    (CacheInvalidSignature [] "" "g" 0 = [] ∧
      IsInvalidSignature [] "" "g" 0 = false ∧
      sanitizeClaudePayloadForInvalidThinking .null "" [] 0 = (.null, false)) :=
  ⟨((session_id_derivation_contract.2.1 sessionSample).resolve_left (by decide)),
   session_id_derivation_contract.2.2 [] "g" 0 .null⟩

/-! ## Lemmas: retry orchestration -/

/-- The outcome of `executeClaudeNonStreamWithRecovery` as a function of the
attempt-1 arguments (the pre-strip result), for structural reasoning. -/
def orchOutcome {ρ : Type} (tr : Nat → Json → Option Json → ρ × Option GoErr)
    (sid : String) (orig : Json) (c : SigCache) (now : Nat)
    (p1 : Json) (o1 : Option Json) : OrchOut ρ :=
  match (tr 0 p1 o1).2 with
  | none => ⟨tr 0 p1 o1, [(p1, o1)], c⟩
  | some .otherErr => ⟨tr 0 p1 o1, [(p1, o1)], c⟩
  | some (.statusErr code body) =>
    let h := handleAntigravityThinkingErrorRecovery sid orig body code c now
    if h.2.1 then ⟨tr 1 h.1 (some h.1), [(p1, o1), (h.1, some h.1)], h.2.2⟩
    else ⟨tr 0 p1 o1, [(p1, o1)], h.2.2⟩

theorem orch_eq_orchOutcome {ρ : Type} (tr : Nat → Json → Option Json → ρ × Option GoErr)
    (rp : Json) (oo : Option Json) (c : SigCache) (now : Nat) :
    executeClaudeNonStreamWithRecovery tr rp oo c now =
      orchOutcome tr (deriveSessionIDFromClaudeMessages (oo.getD rp)) (oo.getD rp) c now
        (if (sanitizeAntigravityPayloadForInvalidThinking (oo.getD rp)
            (deriveSessionIDFromClaudeMessages (oo.getD rp)) c now).2 then
          (sanitizeAntigravityPayloadForInvalidThinking (oo.getD rp)
            (deriveSessionIDFromClaudeMessages (oo.getD rp)) c now).1
        else rp)
        (if (sanitizeAntigravityPayloadForInvalidThinking (oo.getD rp)
            (deriveSessionIDFromClaudeMessages (oo.getD rp)) c now).2 then
          some ((sanitizeAntigravityPayloadForInvalidThinking (oo.getD rp)
            (deriveSessionIDFromClaudeMessages (oo.getD rp)) c now).1)
        else oo) := rfl

theorem record_cache_cases (sid : String) (p : Json) (body : Body) (c : SigCache)
    (now : Nat) :
    (recordAntigravityInvalidSignature sid p body c now).2 = c ∨
      ∃ sig, (recordAntigravityInvalidSignature sid p body c now).2 =
        CacheInvalidSignature c sid sig now := by
  unfold recordAntigravityInvalidSignature
  by_cases hsid : sid = ""
  · rw [if_pos hsid]
    exact Or.inl rfl
  · rw [if_neg hsid]
    cases hco : extractAntigravityInvalidThinkingPath body with
    | none => exact Or.inl rfl
    | some ij =>
      obtain ⟨i, j⟩ := ij
      by_cases hsig : payloadSignatureAt p i j = ""
      · left
        simp [hsig]
      · right
        exact ⟨payloadSignatureAt p i j, by simp [hsig]⟩

theorem handle_not_classified (sid : String) (orig : Json) (body : Body) (code : Int)
    (c : SigCache) (now : Nat)
    (h : isAntigravityThinkingSignatureError code body = false) :
    handleAntigravityThinkingErrorRecovery sid orig body code c now = (orig, false, c) := by
  unfold handleAntigravityThinkingErrorRecovery
  rw [if_pos (by simp [h])]

theorem handle_classified_flag (sid : String) (orig : Json) (body : Body) (code : Int)
    (c : SigCache) (now : Nat)
    (h : isAntigravityThinkingSignatureError code body = true) :
    (handleAntigravityThinkingErrorRecovery sid orig body code c now).2.1 = true := by
  unfold handleAntigravityThinkingErrorRecovery
  rw [if_neg (by simp [h])]
  rcases hrec : recordAntigravityInvalidSignature sid orig body c now with ⟨os, c'⟩
  cases os <;> simp

theorem handle_cache_cases (sid : String) (orig : Json) (body : Body) (code : Int)
    (c : SigCache) (now : Nat) :
    (handleAntigravityThinkingErrorRecovery sid orig body code c now).2.2 = c ∨
      ∃ sig, (handleAntigravityThinkingErrorRecovery sid orig body code c now).2.2 =
        CacheInvalidSignature c sid sig now := by
  unfold handleAntigravityThinkingErrorRecovery
  by_cases hcl : isAntigravityThinkingSignatureError code body
  · rw [if_neg (by simp [hcl])]
    have := record_cache_cases sid orig body c now
    rcases hrec : recordAntigravityInvalidSignature sid orig body c now with ⟨os, c'⟩
    rw [hrec] at this
    cases os <;> simpa using this
  · rw [if_pos (by simp [hcl])]
    exact Or.inl rfl

/-- Structural facts about the orchestrator outcome, for arbitrary attempt-1
arguments: the first attempt is recorded first; at most two attempts; at
most one cache write; non-classified outcomes pass through unchanged with
one attempt and no write; classified outcomes yield exactly one retry whose
result is returned verbatim. -/
theorem orchOutcome_facts {ρ : Type} (tr : Nat → Json → Option Json → ρ × Option GoErr)
    (sid : String) (orig : Json) (c : SigCache) (now : Nat)
    (p1 : Json) (o1 : Option Json) :
    (orchOutcome tr sid orig c now p1 o1).sent.head? = some (p1, o1) ∧
    ((orchOutcome tr sid orig c now p1 o1).sent.length = 1 ∨
      (orchOutcome tr sid orig c now p1 o1).sent.length = 2) ∧
    ((orchOutcome tr sid orig c now p1 o1).cache = c ∨
      ∃ sig, (orchOutcome tr sid orig c now p1 o1).cache =
        CacheInvalidSignature c sid sig now) ∧
    (∀ r e, tr 0 p1 o1 = (r, e) →
      ((e = none ∨ e = some .otherErr) →
        orchOutcome tr sid orig c now p1 o1 = ⟨(r, e), [(p1, o1)], c⟩) ∧
      (∀ code body, e = some (.statusErr code body) →
        (isAntigravityThinkingSignatureError code body = false →
          orchOutcome tr sid orig c now p1 o1 = ⟨(r, e), [(p1, o1)], c⟩) ∧
        (isAntigravityThinkingSignatureError code body = true →
          ∃ np, (orchOutcome tr sid orig c now p1 o1).sent = [(p1, o1), (np, some np)] ∧
            (orchOutcome tr sid orig c now p1 o1).result = tr 1 np (some np)))) := by
  rcases h0 : tr 0 p1 o1 with ⟨r0, e0⟩
  cases e0 with
  | none =>
    have ho : orchOutcome tr sid orig c now p1 o1 = ⟨(r0, none), [(p1, o1)], c⟩ := by
      unfold orchOutcome
      rw [h0]
    rw [ho]
    refine ⟨rfl, Or.inl rfl, Or.inl rfl, ?_⟩
    intro r e he
    cases he
    refine ⟨fun _ => rfl, ?_⟩
    intro code body hbody
    exact absurd hbody (by simp)
  | some ge =>
    cases ge with
    | otherErr =>
      have ho : orchOutcome tr sid orig c now p1 o1 =
          ⟨(r0, some .otherErr), [(p1, o1)], c⟩ := by
        unfold orchOutcome
        rw [h0]
      rw [ho]
      refine ⟨rfl, Or.inl rfl, Or.inl rfl, ?_⟩
      intro r e he
      cases he
      refine ⟨fun _ => rfl, ?_⟩
      intro code body hbody
      exact absurd hbody (by simp)
    | statusErr code0 body0 =>
      by_cases hcl : isAntigravityThinkingSignatureError code0 body0
      · have hflag := handle_classified_flag sid orig body0 code0 c now hcl
        have ho : orchOutcome tr sid orig c now p1 o1 =
            ⟨tr 1 (handleAntigravityThinkingErrorRecovery sid orig body0 code0 c now).1
                (some (handleAntigravityThinkingErrorRecovery sid orig body0 code0 c now).1),
              [(p1, o1),
               ((handleAntigravityThinkingErrorRecovery sid orig body0 code0 c now).1,
                some (handleAntigravityThinkingErrorRecovery sid orig body0 code0 c now).1)],
              (handleAntigravityThinkingErrorRecovery sid orig body0 code0 c now).2.2⟩ := by
          unfold orchOutcome
          rw [h0]
          simp only [hflag, if_true]
        rw [ho]
        refine ⟨rfl, Or.inr rfl, ?_, ?_⟩
        · exact handle_cache_cases sid orig body0 code0 c now
        · intro r e he
          cases he
          refine ⟨?_, ?_⟩
          · rintro (h | h) <;> exact absurd h (by simp)
          · intro code body hbody
            cases hbody
            refine ⟨fun hf => absurd hcl (by simp [hf]), fun _ => ⟨_, rfl, rfl⟩⟩
      · have hcl' : isAntigravityThinkingSignatureError code0 body0 = false := by
          simpa using hcl
        have hh := handle_not_classified sid orig body0 code0 c now hcl'
        have ho : orchOutcome tr sid orig c now p1 o1 =
            ⟨(r0, some (.statusErr code0 body0)), [(p1, o1)], c⟩ := by
          unfold orchOutcome
          rw [h0]
          simp [hh]
        rw [ho]
        refine ⟨rfl, Or.inl rfl, Or.inl rfl, ?_⟩
        intro r e he
        cases he
        refine ⟨?_, ?_⟩
        · rintro (h | h) <;> exact absurd h (by simp)
        · intro code body hbody
          cases hbody
          exact ⟨fun _ => rfl, fun ht => absurd ht (by simp [hcl'])⟩

theorem recordC_cache_cases (sid : String) (p : Json) (body : Body) (c : SigCache)
    (now : Nat) :
    (recordInvalidThinkingSignatureFromError sid p body c now).2 = c ∨
      ∃ sig, (recordInvalidThinkingSignatureFromError sid p body c now).2 =
        CacheInvalidSignature c sid sig now := by
  unfold recordInvalidThinkingSignatureFromError
  by_cases hsid : sid = ""
  · rw [if_pos hsid]
    exact Or.inl rfl
  · rw [if_neg hsid]
    cases hco : extractInvalidThinkingPath body with
    | none => exact Or.inl rfl
    | some ij =>
      obtain ⟨i, j⟩ := ij
      by_cases hsig : payloadSignatureAt p i j = ""
      · left
        simp [hsig]
      · right
        exact ⟨payloadSignatureAt p i j, by simp [hsig]⟩

theorem handleC_not_classified (sid : String) (payload : Json) (body : Body) (code : Int)
    (c : SigCache) (now : Nat)
    (h : isClaudeThinkingInvalidSignatureError code body = false) :
    handleThinkingErrorRecovery sid payload body code c now = (payload, false, c) := by
  unfold handleThinkingErrorRecovery
  rw [if_pos (by simp [h])]

theorem handleC_classified_flag (sid : String) (payload : Json) (body : Body) (code : Int)
    (c : SigCache) (now : Nat)
    (h : isClaudeThinkingInvalidSignatureError code body = true) :
    (handleThinkingErrorRecovery sid payload body code c now).2.1 = true := by
  unfold handleThinkingErrorRecovery
  rw [if_neg (by simp [h])]
  rcases hrec : recordInvalidThinkingSignatureFromError sid payload body c now with ⟨os, c'⟩
  cases os <;> simp

theorem handleC_cache_cases (sid : String) (payload : Json) (body : Body) (code : Int)
    (c : SigCache) (now : Nat) :
    (handleThinkingErrorRecovery sid payload body code c now).2.2 = c ∨
      ∃ sig, (handleThinkingErrorRecovery sid payload body code c now).2.2 =
        CacheInvalidSignature c sid sig now := by
  unfold handleThinkingErrorRecovery
  by_cases hcl : isClaudeThinkingInvalidSignatureError code body
  · rw [if_neg (by simp [hcl])]
    have := recordC_cache_cases sid payload body c now
    rcases hrec : recordInvalidThinkingSignatureFromError sid payload body c now with ⟨os, c'⟩
    rw [hrec] at this
    cases os <;> simpa using this
  · rw [if_pos (by simp [hcl])]
    exact Or.inl rfl

theorem isClaude_classified_status (status : Int) (body : Body)
    (h : isClaudeThinkingInvalidSignatureError status body = true) : status = 400 := by
  by_contra hne
  unfold isClaudeThinkingInvalidSignatureError at h
  rw [if_pos hne] at h
  cases h

/-- **C3**: per request both retry orchestrators issue at most two upstream
attempts and write the blacklist at most once; a first response that is not
a classified signature error (success, a non-status error, any non-400
status, or a 400 without the classifier keywords) is returned unchanged
after exactly one attempt with the cache untouched; after a classified
signature error exactly one retry is issued and its outcome — success or
failure — is returned verbatim, with no third attempt. -/
theorem retry_orchestration_two_attempt_bound :
    (∀ (ρ : Type) (tr : Nat → Json → Option Json → ρ × Option GoErr)
        (rp : Json) (oo : Option Json) (c : SigCache) (now : Nat),
      ((executeClaudeNonStreamWithRecovery tr rp oo c now).sent.length = 1 ∨
        (executeClaudeNonStreamWithRecovery tr rp oo c now).sent.length = 2) ∧
      ((executeClaudeNonStreamWithRecovery tr rp oo c now).cache = c ∨
        ∃ sid sig, (executeClaudeNonStreamWithRecovery tr rp oo c now).cache =
          CacheInvalidSignature c sid sig now) ∧
      (∀ p1 o1,
        (executeClaudeNonStreamWithRecovery tr rp oo c now).sent.head? = some (p1, o1) →
        ∀ r e, tr 0 p1 o1 = (r, e) →
          ((e = none ∨ e = some .otherErr) →
            executeClaudeNonStreamWithRecovery tr rp oo c now =
              ⟨(r, e), [(p1, o1)], c⟩) ∧
          (∀ code body, e = some (.statusErr code body) →
            (isAntigravityThinkingSignatureError code body = false →
              executeClaudeNonStreamWithRecovery tr rp oo c now =
                ⟨(r, e), [(p1, o1)], c⟩) ∧
            (isAntigravityThinkingSignatureError code body = true →
              ∃ np, (executeClaudeNonStreamWithRecovery tr rp oo c now).sent =
                  [(p1, o1), (np, some np)] ∧
                (executeClaudeNonStreamWithRecovery tr rp oo c now).result =
                  tr 1 np (some np))))) ∧
    (∀ (ε : Type) (base : Nat → Option Json → Except ε HttpResponse)
        (isCM : Bool) (sid : String) (ip : Json) (c : SigCache) (now : Nat),
      (claudeThinkingRecoveryTransportRoundTrip base isCM sid ip c now).2.1 ≤ 2 ∧
      ((claudeThinkingRecoveryTransportRoundTrip base isCM sid ip c now).2.2 = c ∨
        ∃ g, (claudeThinkingRecoveryTransportRoundTrip base isCM sid ip c now).2.2 =
          CacheInvalidSignature c sid g now) ∧
      (∀ resp, base 0 none = .ok resp → resp.status ≠ 400 →
        claudeThinkingRecoveryTransportRoundTrip base isCM sid ip c now =
          (.ok resp, 1, c)) ∧
      (∀ resp, isCM = true → base 0 none = .ok resp →
        isClaudeThinkingInvalidSignatureError resp.status resp.body = false →
        (claudeThinkingRecoveryTransportRoundTrip base isCM sid ip c now).1 = .ok resp ∧
        (claudeThinkingRecoveryTransportRoundTrip base isCM sid ip c now).2.1 = 1) ∧
      (∀ resp, isCM = true → base 0 none = .ok resp →
        isClaudeThinkingInvalidSignatureError resp.status resp.body = true →
        ∃ np, (claudeThinkingRecoveryTransportRoundTrip base isCM sid ip c now).1 =
            base 1 (some np) ∧
          (claudeThinkingRecoveryTransportRoundTrip base isCM sid ip c now).2.1 = 2)) := by
  constructor
  · intro ρ tr rp oo c now
    rw [orch_eq_orchOutcome]
    obtain ⟨hhead, hlen, hcache, himpl⟩ :=
      orchOutcome_facts tr (deriveSessionIDFromClaudeMessages (oo.getD rp)) (oo.getD rp)
        c now
        (if (sanitizeAntigravityPayloadForInvalidThinking (oo.getD rp)
            (deriveSessionIDFromClaudeMessages (oo.getD rp)) c now).2 then
          (sanitizeAntigravityPayloadForInvalidThinking (oo.getD rp)
            (deriveSessionIDFromClaudeMessages (oo.getD rp)) c now).1
        else rp)
        (if (sanitizeAntigravityPayloadForInvalidThinking (oo.getD rp)
            (deriveSessionIDFromClaudeMessages (oo.getD rp)) c now).2 then
          some ((sanitizeAntigravityPayloadForInvalidThinking (oo.getD rp)
            (deriveSessionIDFromClaudeMessages (oo.getD rp)) c now).1)
        else oo)
    refine ⟨hlen, ?_, ?_⟩
    · rcases hcache with h | ⟨sig, h⟩
      · exact Or.inl h
      · exact Or.inr ⟨_, sig, h⟩
    · intro p1 o1 hh r e he
      have hpin := Option.some.inj (hhead.symm.trans hh)
      obtain ⟨h1, h2⟩ := Prod.mk.injEq _ _ _ _ ▸ hpin
      subst h1
      subst h2
      exact himpl r e he
  · intro ε base isCM sid ip c now
    cases isCM with
    | false =>
      have hout : claudeThinkingRecoveryTransportRoundTrip base false sid ip c now =
          (base 0 none, 1, c) := by
        unfold claudeThinkingRecoveryTransportRoundTrip
        rw [if_pos (by simp)]
      rw [hout]
      refine ⟨by simp, Or.inl rfl, ?_, ?_, ?_⟩
      · intro resp hb _
        rw [hb]
      · intro resp hcm
        cases hcm
      · intro resp hcm
        cases hcm
    | true =>
      cases hb : base 0 none with
      | error err =>
        have hout : claudeThinkingRecoveryTransportRoundTrip base true sid ip c now =
            (.error err, 1, c) := by
          unfold claudeThinkingRecoveryTransportRoundTrip
          rw [if_neg (by simp), hb]
        rw [hout]
        refine ⟨by simp, Or.inl rfl, ?_, ?_, ?_⟩
        · intro resp hbb
          cases hbb
        · intro resp _ hbb
          cases hbb
        · intro resp _ hbb
          cases hbb
      | ok resp0 =>
        by_cases hst : resp0.status = 400
        · by_cases hcl : isClaudeThinkingInvalidSignatureError resp0.status resp0.body
          · have hflag := handleC_classified_flag sid ip resp0.body resp0.status c now hcl
            have hout : claudeThinkingRecoveryTransportRoundTrip base true sid ip c now =
                (base 1 (some (handleThinkingErrorRecovery sid ip resp0.body
                    resp0.status c now).1), 2,
                  (handleThinkingErrorRecovery sid ip resp0.body resp0.status c now).2.2) := by
              unfold claudeThinkingRecoveryTransportRoundTrip
              rw [if_neg (by simp), hb]
              have hflag' : (handleThinkingErrorRecovery sid ip resp0.body 400 c now).2.1 =
                  true := hst ▸ hflag
              simp [hst, hflag']
            rw [hout]
            refine ⟨by simp, ?_, ?_, ?_, ?_⟩
            · exact handleC_cache_cases sid ip resp0.body resp0.status c now
            · intro resp hbb hne
              cases hbb
              exact absurd hst hne
            · intro resp _ hbb hclf
              cases hbb
              exact absurd hcl (by simp [hclf])
            · intro resp _ hbb _
              cases hbb
              exact ⟨_, rfl, rfl⟩
          · have hcl' : isClaudeThinkingInvalidSignatureError resp0.status resp0.body =
                false := by simpa using hcl
            have hh := handleC_not_classified sid ip resp0.body resp0.status c now hcl'
            have hout : claudeThinkingRecoveryTransportRoundTrip base true sid ip c now =
                (.ok resp0, 1, c) := by
              unfold claudeThinkingRecoveryTransportRoundTrip
              rw [if_neg (by simp), hb]
              have hh' : handleThinkingErrorRecovery sid ip resp0.body 400 c now =
                  (ip, false, c) := hst ▸ hh
              simp [hst, hh']
            rw [hout]
            refine ⟨by simp, Or.inl rfl, ?_, ?_, ?_⟩
            · intro resp hbb hne
              cases hbb
              exact absurd hst hne
            · intro resp _ hbb _
              cases hbb
              exact ⟨rfl, rfl⟩
            · intro resp _ hbb hclt
              cases hbb
              exact absurd hclt (by simp [hcl'])
        · have hout : claudeThinkingRecoveryTransportRoundTrip base true sid ip c now =
              (.ok resp0, 1, c) := by
            unfold claudeThinkingRecoveryTransportRoundTrip
            rw [if_neg (by simp), hb]
            simp [hst]
          rw [hout]
          refine ⟨by simp, Or.inl rfl, ?_, ?_, ?_⟩
          · intro resp hbb _
            cases hbb
            rfl
          · intro resp _ hbb _
            cases hbb
            exact ⟨rfl, rfl⟩
          · intro resp _ hbb hclt
            cases hbb
            exact absurd (isClaude_classified_status _ _ hclt) hst

/-- A classified signature-error body for the retry-bound witness. -/
def c3ErrBody : Body := .text "Invalid signature in thinking block"

/-- A transport failing attempt 0 with a classified error and succeeding on
attempt 1. -/
def c3Transport : Nat → Json → Option Json → Unit × Option GoErr :=
  fun k _ _ => ((), if k = 0 then some (.statusErr 400 c3ErrBody) else none)

/-- A round-tripper answering 500. -/
def c3Base : Nat → Option Json → Except Unit HttpResponse :=
  fun _ _ => .ok ⟨500, .text "oops"⟩

/-- Concrete instantiation of the retry bound: a classified failure leads to
exactly one retry whose outcome is returned, and a non-400 response passes
through unchanged after a single call. -/
theorem retry_orchestration_two_attempt_bound_witness :
    (∃ np, (executeClaudeNonStreamWithRecovery c3Transport Json.null none [] 0).sent =
        [(Json.null, none), (np, some np)] ∧
      (executeClaudeNonStreamWithRecovery c3Transport Json.null none [] 0).result =
        c3Transport 1 np (some np)) ∧
    claudeThinkingRecoveryTransportRoundTrip c3Base true "sess" Json.null [] 0 =
      (.ok ⟨500, Body.text "oops"⟩, 1, []) :=
  ⟨(((retry_orchestration_two_attempt_bound.1 Unit c3Transport Json.null none [] 0).2.2
      Json.null none rfl () (some (.statusErr 400 c3ErrBody)) rfl).2 400 c3ErrBody rfl).2
      (by decide),
   (retry_orchestration_two_attempt_bound.2 Unit c3Base true "sess" Json.null [] 0).2.2.1
     ⟨500, Body.text "oops"⟩ rfl (by decide)⟩

/-- A request whose assistant turn has a blacklisted thinking block (sigA)
at coordinate (1,0) and a clean one (sigB) at (1,1). -/
def recoverySample : Json := .obj [("messages", .arr [
  .obj [("role", .str "user"), ("content", .str "hi")],
  .obj [("role", .str "assistant"), ("content", .arr [
    .obj [("type", .str "thinking"), ("thinking", .str "a"), ("signature", .str "sigA")],
    .obj [("type", .str "thinking"), ("thinking", .str "b"), ("signature", .str "sigB")]])]])]

/-- The session of that request. -/
def recoverySid : String := deriveSessionIDFromClaudeMessages recoverySample

/-- A cache that already blacklists `sigA` for this session. -/
def recoveryCache : SigCache := CacheInvalidSignature [] recoverySid "sigA" 0

/-- An upstream rejection pointing at coordinate (1,0). -/
def recoveryErrBody : Body := .text "messages.1.content.0: Invalid signature in thinking block"

/-- A transport returning that rejection on attempt 0 and succeeding after. -/
def recoveryTransport : Nat → Json → Option Json → Unit × Option GoErr :=
  fun k _ _ => ((), if k = 0 then some (.statusErr 400 recoveryErrBody) else none)

/-- The orchestrator run on this scenario. -/
def recoveryOut : OrchOut Unit :=
  executeClaudeNonStreamWithRecovery recoveryTransport recoverySample none recoveryCache 0

/-- The payload actually sent on attempt 1 of this run. -/
def recoverySent1 : Json := (recoveryOut.sent.headD (Json.null, none)).1

set_option maxRecDepth 40000 in
/-- **C2**: the claim says the recorded signature is read from the payload
actually sent on attempt 1 (after the pre-attempt selective strip).  In this
run the pre-strip has already replaced coordinate (1,0), so the sent payload
carries no signature there — under the claim the record must fail and the
full strip must also replace the sigB block.  The code instead reads the
pre-sanitized original payload: it re-records the stale `sigA` into the
blacklist and selective-strips, so the retried payload still carries the
sigB thinking block. -/
theorem orchestrator_records_presanitized_signature :
    recoveryOut.sent.length = 2 ∧
    blockTypeAt recoverySent1 1 0 = "text" ∧
    payloadSignatureAt recoverySent1 1 0 = "" ∧
    recoveryOut.cache = CacheInvalidSignature recoveryCache recoverySid "sigA" 0 ∧
    (recoveryOut.sent.map fun a => payloadSignatureAt a.1 1 1) = ["sigB", "sigB"] ∧
    blockTypeAt (stripClaudeThinkingBlocksForRetry recoverySent1).1 1 1 = "text" := by
  refine ⟨?_, ?_, ?_, ?_, ?_, ?_⟩ <;> decide

/-! ## C9: final-only SSE reconstruction -/

/-- Whether a frame is an unlabelled data frame. -/
def SSEFrame.isData : SSEFrame → Bool
  | .dataFrame _ => true
  | _ => false

/-- With a present, non-null usage object the message delta carries it as a
third field after the delta and type fields. -/
lemma claudeMessageDelta_of_usage (resp u : Json) (h : resp.getKey "usage" = some u)
    (hn : u ≠ .null) :
    claudeMessageDelta resp =
      .obj [("delta", .obj [("stop_reason", .str (gstr (resp.getKey "stop_reason"))),
                            ("stop_sequence", .null)]),
            ("type", .str "message_delta"), ("usage", u)] := by
  cases u
  case null => exact absurd rfl hn
  all_goals (simp only [claudeMessageDelta, h]; rfl)

/-- With usage absent (or JSON null, when gjson's `Value()` is nil) the
message delta has no usage field. -/
lemma claudeMessageDelta_no_usage (resp : Json)
    (h : resp.getKey "usage" = none ∨ resp.getKey "usage" = some .null) :
    claudeMessageDelta resp =
      .obj [("delta", .obj [("stop_reason", .str (gstr (resp.getKey "stop_reason"))),
                            ("stop_sequence", .null)]),
            ("type", .str "message_delta")] := by
  rcases h with h | h <;> simp only [claudeMessageDelta, h]

/-- **C9**: the Claude reconstructor emits exactly one `message_start`
carrying the response verbatim, then per content block in source order a
start frame, a delta frame only for `text` / `thinking` blocks carrying the
block's exact text or thinking content, and a stop frame, then a
`message_delta` with the stop reason and the usage object exactly when
present (non-null), then a final `message_stop`; a labelled frame renders as
an event-name line, a data line and a blank line; and the OpenAI form is a
single data frame terminated by `data: [DONE]`. -/
theorem streaming_reconstruction_contract :
    (∀ resp : Json, BuildClaudeFinalOnlySSE resp =
      .labeled "message_start" (.obj [("type", .str "message_start"), ("message", resp)]) ::
      (((garr (resp.getKey "content")).enum.flatMap fun p => claudeBlockFrames p.1 p.2)
       ++ [.labeled "message_delta" (claudeMessageDelta resp),
           .labeled "message_stop" (.obj [("type", .str "message_stop")])])) ∧
    (∀ (i : Nat) (b : Json), gstr (b.getKey "type") = "text" →
      claudeBlockFrames i b =
        [.labeled "content_block_start"
           (.obj [("content_block", b), ("index", .num (Int.ofNat i)),
                  ("type", .str "content_block_start")]),
         .labeled "content_block_delta"
           (.obj [("delta", .obj [("text", .str (gstr (b.getKey "text"))),
                                  ("type", .str "text_delta")]),
                  ("index", .num (Int.ofNat i)), ("type", .str "content_block_delta")]),
         .labeled "content_block_stop"
           (.obj [("index", .num (Int.ofNat i)), ("type", .str "content_block_stop")])]) ∧
    (∀ (i : Nat) (b : Json), gstr (b.getKey "type") = "thinking" →
      claudeBlockFrames i b =
        [.labeled "content_block_start"
           (.obj [("content_block", b), ("index", .num (Int.ofNat i)),
                  ("type", .str "content_block_start")]),
         .labeled "content_block_delta"
           (.obj [("delta", .obj [("thinking", .str (gstr (b.getKey "thinking"))),
                                  ("type", .str "thinking_delta")]),
                  ("index", .num (Int.ofNat i)), ("type", .str "content_block_delta")]),
         .labeled "content_block_stop"
           (.obj [("index", .num (Int.ofNat i)), ("type", .str "content_block_stop")])]) ∧
    (∀ (i : Nat) (b : Json), gstr (b.getKey "type") ≠ "text" →
      gstr (b.getKey "type") ≠ "thinking" →
      claudeBlockFrames i b =
        [.labeled "content_block_start"
           (.obj [("content_block", b), ("index", .num (Int.ofNat i)),
                  ("type", .str "content_block_start")]),
         .labeled "content_block_stop"
           (.obj [("index", .num (Int.ofNat i)), ("type", .str "content_block_stop")])]) ∧
    (∀ resp : Json, (claudeMessageDelta resp).getKey "delta" =
      some (.obj [("stop_reason", .str (gstr (resp.getKey "stop_reason"))),
                  ("stop_sequence", .null)])) ∧
    (∀ resp : Json, (claudeMessageDelta resp).getKey "type" =
      some (.str "message_delta")) ∧
    (∀ (resp u : Json), resp.getKey "usage" = some u → u ≠ .null →
      (claudeMessageDelta resp).getKey "usage" = some u) ∧
    (∀ resp : Json, resp.getKey "usage" = none →
      (claudeMessageDelta resp).getKey "usage" = none) ∧
    (∀ (e : String) (d : Json), renderFrame (.labeled e d) =
      "event: " ++ e ++ "\n" ++ "data: " ++ d.render ++ "\n" ++ "\n") ∧
    (∀ (resp : Json) (n1 n2 : Int),
      (BuildOpenAIFinalOnlySSE resp n1 n2).length = 2 ∧
      ((BuildOpenAIFinalOnlySSE resp n1 n2).headD .doneFrame).isData = true ∧
      (BuildOpenAIFinalOnlySSE resp n1 n2).getLast? = some .doneFrame) := by
  refine ⟨?_, ?_, ?_, ?_, ?_, ?_, ?_, ?_, ?_, ?_⟩
  · intro resp; simp [BuildClaudeFinalOnlySSE]
  · intro i b h; simp [claudeBlockFrames, h]
  · intro i b h; simp [claudeBlockFrames, h]
  · intro i b h1 h2; simp [claudeBlockFrames, h1, h2]
  · intro resp
    cases h : resp.getKey "usage" with
    | none => rw [claudeMessageDelta_no_usage resp (.inl h)]; rfl
    | some u =>
      cases u
      case null => rw [claudeMessageDelta_no_usage resp (.inr h)]; rfl
      all_goals (rw [claudeMessageDelta_of_usage resp _ h (by simp)]; rfl)
  · intro resp
    cases h : resp.getKey "usage" with
    | none => rw [claudeMessageDelta_no_usage resp (.inl h)]; rfl
    | some u =>
      cases u
      case null => rw [claudeMessageDelta_no_usage resp (.inr h)]; rfl
      all_goals (rw [claudeMessageDelta_of_usage resp _ h (by simp)]; rfl)
  · intro resp u h hn; rw [claudeMessageDelta_of_usage resp u h hn]; rfl
  · intro resp h; rw [claudeMessageDelta_no_usage resp (.inl h)]; rfl
  · intro e d; simp [renderFrame, String.append_assoc]
  · intro resp n1 n2; exact ⟨rfl, rfl, rfl⟩

/-- A thinking block with content `hm`. -/
def c9Think : Json :=
  .obj [("type", .str "thinking"), ("thinking", .str "hm"), ("signature", .str "s")]

/-- A text block with content `hello`. -/
def c9Text : Json := .obj [("type", .str "text"), ("text", .str "hello")]

/-- A tool-use block: neither text nor thinking. -/
def c9Tool : Json :=
  .obj [("type", .str "tool_use"), ("id", .str "t1"), ("name", .str "f"), ("input", .obj [])]

/-- A usage object. -/
def c9Usage : Json := .obj [("input_tokens", .num 3), ("output_tokens", .num 5)]

/-- A three-block response with usage. -/
def c9Resp : Json := .obj [
  ("id", .str "msg_1"), ("type", .str "message"), ("role", .str "assistant"),
  ("content", .arr [c9Think, c9Text, c9Tool]),
  ("stop_reason", .str "end_turn"), ("usage", c9Usage)]

/-- Concrete instantiation of the reconstruction contract on a
thinking + text + tool-use response: the thinking and text blocks get a
delta frame carrying their exact content, the tool-use block only the
start/stop framing, the message delta carries the usage object, and the
OpenAI form ends in the `[DONE]` frame. -/
theorem streaming_reconstruction_contract_witness :
    claudeBlockFrames 0 c9Think =
      [.labeled "content_block_start"
         (.obj [("content_block", c9Think), ("index", .num 0),
                ("type", .str "content_block_start")]),
       .labeled "content_block_delta"
         (.obj [("delta", .obj [("thinking", .str "hm"), ("type", .str "thinking_delta")]),
                ("index", .num 0), ("type", .str "content_block_delta")]),
       .labeled "content_block_stop"
         (.obj [("index", .num 0), ("type", .str "content_block_stop")])] ∧
    claudeBlockFrames 1 c9Text =
      [.labeled "content_block_start"
         (.obj [("content_block", c9Text), ("index", .num 1),
                ("type", .str "content_block_start")]),
       .labeled "content_block_delta"
         (.obj [("delta", .obj [("text", .str "hello"), ("type", .str "text_delta")]),
                ("index", .num 1), ("type", .str "content_block_delta")]),
       .labeled "content_block_stop"
         (.obj [("index", .num 1), ("type", .str "content_block_stop")])] ∧
    claudeBlockFrames 2 c9Tool =
      [.labeled "content_block_start"
         (.obj [("content_block", c9Tool), ("index", .num 2),
                ("type", .str "content_block_start")]),
       .labeled "content_block_stop"
         (.obj [("index", .num 2), ("type", .str "content_block_stop")])] ∧
    (claudeMessageDelta c9Resp).getKey "usage" = some c9Usage ∧
    (BuildOpenAIFinalOnlySSE c9Resp 7 8).getLast? = some .doneFrame :=
  ⟨streaming_reconstruction_contract.2.2.1 0 c9Think rfl,
   streaming_reconstruction_contract.2.1 1 c9Text rfl,
   streaming_reconstruction_contract.2.2.2.1 2 c9Tool (by decide) (by decide),
   streaming_reconstruction_contract.2.2.2.2.2.2.1 c9Resp c9Usage rfl (by simp [c9Usage]),
   (streaming_reconstruction_contract.2.2.2.2.2.2.2.2.2 c9Resp 7 8).2.2⟩


end CLIProxy
